import Mathlib

/-!
# Ancillary curves of CoolProp: saturation ancillaries and melting lines

A shallow embedding of `src/Backends/Helmholtz/Fluids/Ancillaries.cpp`.

* The C++ number types `double` / `long double` are one type `α`, of which only
  the operations the code applies are assumed (`+ - * /`, the literals `0` and
  `1`, and a decidable `≤`).  No algebraic law is assumed in the definitions,
  so every statement proved for an arbitrary `α` holds for any arithmetic,
  rounded or exact.  Statements that need algebra are stated over `ℝ`.
* Everything the translation unit takes from headers and libraries that are
  not part of it (`pow`, `exp`, `DBL_EPSILON`, the keys `iP` / `iT`, the
  solvers `Brent` / `Secant`, the polynomial evaluators) is a field of
  `Externals`.
* `std::vector` is `List`; a `throw` is `Except.error (Failure.ValueError _)`;
  an access outside a vector is `Except.error Failure.undefined`.
* The `json_code` the constructor reads is a `JsonCode`: the outcome of each
  read the constructor makes of it.
* Member functions that modify the object return the new object.
-/

namespace CoolProp

/-- The ways a call can end without returning a value. -/
inductive Failure where
  /-- `throw ValueError(msg)`; for a `format(...)` message the format string is kept. -/
  | ValueError (msg : String)
  /-- Behaviour the language leaves undefined (an access outside a vector). -/
  | undefined
  deriving DecidableEq, Repr

/-- Form tag of a saturation ancillary. -/
inductive ancillaryfunctiontypes where
  | TYPE_NOT_SET
  | TYPE_NOT_EXPONENTIAL
  | TYPE_EXPONENTIAL
  | TYPE_RATIONAL_POLYNOMIAL
  deriving DecidableEq, Repr

/-- Form tag of a melting line. -/
inductive MeltingLineVariablesEnum where
  | MELTING_LINE_NOT_SET
  | MELTING_LINE_SIMON_TYPE
  | MELTING_LINE_POLYNOMIAL_IN_TR_TYPE
  | MELTING_LINE_POLYNOMIAL_IN_THETA_TYPE
  deriving DecidableEq, Repr

/-- One segment of a Simon-type melting line. -/
structure MeltingLinePiecewiseSimonSegment (α : Type) where
  T_0 : α
  a : α
  c : α
  p_0 : α
  T_max : α
  T_min : α
  p_min : α
  p_max : α

/-- The segments of a Simon-type melting line. -/
structure MeltingLinePiecewiseSimonData (α : Type) where
  parts : List (MeltingLinePiecewiseSimonSegment α)

/-- Modelled from the spec: one segment of a melting line that is a polynomial
in the reduced temperature.  The declaration is in `Ancillaries.h`; the code
of this unit reads `T_min`, `T_max`, `p_min`, `p_max` and calls `evaluate`,
the spec lists the rest as `coefficients`. -/
structure MeltingLinePiecewisePolynomialInTrSegment (α : Type) where
  coefficients : List α
  T_max : α
  T_min : α
  p_min : α
  p_max : α

/-- The segments of a polynomial-in-reduced-temperature melting line. -/
structure MeltingLinePiecewisePolynomialInTrData (α : Type) where
  parts : List (MeltingLinePiecewisePolynomialInTrSegment α)

/-- One segment of a melting line that is a polynomial in `T/T_0 - 1`:
the fields this unit reads. -/
structure MeltingLinePiecewisePolynomialInThetaSegment (α : Type) where
  a : List α
  t : List α
  T_0 : α
  p_0 : α
  T_max : α
  T_min : α

/-- The segments of a polynomial-in-theta melting line. -/
structure MeltingLinePiecewisePolynomialInThetaData (α : Type) where
  parts : List (MeltingLinePiecewisePolynomialInThetaSegment α)

/-- A melting line: the form tag, one segment collection per form, and the
curve-level bounds. -/
structure MeltingLineVariables (α : Type) where
  type : MeltingLineVariablesEnum
  simon : MeltingLinePiecewiseSimonData α
  polynomial_in_Tr : MeltingLinePiecewisePolynomialInTrData α
  polynomial_in_Theta : MeltingLinePiecewisePolynomialInThetaData α
  Tmin : α
  Tmax : α
  pmin : α
  pmax : α

/-- A saturation ancillary: the fields of all forms, and the scratch vector `s`. -/
structure SaturationAncillaryFunction (α : Type) where
  num_coeffs : List α
  den_coeffs : List α
  n : List α
  t : List α
  s : List α
  using_tau_r : Bool
  Tmax : α
  Tmin : α
  reducing_value : α
  T_r : α
  max_abs_error : α
  type : ancillaryfunctiontypes
  N : Nat

/-- What `Ancillaries.cpp` uses and does not define. -/
structure Externals (α : Type) where
  /-- `pow(x, y)` of the C library. -/
  pow : α → α → α
  /-- `exp(x)` of the C library. -/
  exp : α → α
  /-- `DBL_EPSILON` of `<cfloat>`. -/
  DBL_EPSILON : α
  /-- The key `iP` of the enumeration `parameters` (`DataStructures.h`). -/
  iP : Int
  /-- The key `iT` of the enumeration `parameters` (`DataStructures.h`). -/
  iT : Int
  /-- Two enumerators of one enumeration are different. -/
  iP_ne_iT : iP ≠ iT
  /-- `Polynomial2D::evaluate(coefficients, x)`. -/
  polyEvaluate : List α → α → α
  /-- `MeltingLinePiecewisePolynomialInTrSegment::evaluate(T)` (`Ancillaries.h`). -/
  trEvaluate : MeltingLinePiecewisePolynomialInTrSegment α → α → α
  /-- `Brent(f, a, b, macheps, t, maxiter, errstring)` (`Solvers.h`). -/
  Brent : (α → Except Failure α) → α → α → α → α → Nat → Except Failure α
  /-- `Secant(f, x0, dx, tol, maxiter, errstring)` (`Solvers.h`). -/
  Secant : (α → Except Failure α) → α → α → α → Nat → Except Failure α

/-- Modelled from the spec: `rapidjson::Value` and the `cpjson` accessors are
not part of this unit, and the spec has the configuration arrive as values
already parsed.  A `json_code` is given by the outcome of each read the
constructor makes of it: the value read, or the failure of the accessor. -/
structure JsonCode (α : Type) where
  /-- `cpjson::get_string(json_code, "type")`. -/
  type : Except Failure String
  /-- `cpjson::get_double_array(json_code["A"])`. -/
  A : Except Failure (List α)
  /-- `cpjson::get_double_array(json_code["B"])`. -/
  B : Except Failure (List α)
  /-- `cpjson::get_double(json_code, "max_abs_error")`. -/
  max_abs_error : Except Failure α
  /-- `cpjson::get_double_array(json_code["n"])`. -/
  n : Except Failure (List α)
  /-- `cpjson::get_double_array(json_code["t"])`. -/
  t : Except Failure (List α)
  /-- `cpjson::get_double(json_code, "Tmin")`. -/
  Tmin : Except Failure α
  /-- `cpjson::get_double(json_code, "Tmax")`. -/
  Tmax : Except Failure α
  /-- `cpjson::get_double(json_code, "reducing_value")`. -/
  reducing_value : Except Failure α
  /-- `cpjson::get_bool(json_code, "using_tau_r")`. -/
  using_tau_r : Except Failure Bool
  /-- `cpjson::get_double(json_code, "T_r")`. -/
  T_r : Except Failure α

/-- The first `if`/`else` of the constructor: the members read from
`json_code`, in the order of the source, the first failing read ending the
constructor. -/
def SaturationAncillaryFunction.constructor.read {α : Type}
    (this : SaturationAncillaryFunction α) (json_code : JsonCode α) (type : String) :
    Except Failure (SaturationAncillaryFunction α) :=
  if type = "rational_polynomial" then do
    let num_coeffs ← json_code.A
    let den_coeffs ← json_code.B
    let max_abs_error ← json_code.max_abs_error
    pure { this with
      num_coeffs := num_coeffs, den_coeffs := den_coeffs, max_abs_error := max_abs_error }
  else do
    let n ← json_code.n
    let t ← json_code.t
    let Tmin ← json_code.Tmin
    let Tmax ← json_code.Tmax
    let reducing_value ← json_code.reducing_value
    let using_tau_r ← json_code.using_tau_r
    let T_r ← json_code.T_r
    pure { this with
      n := n, t := t, Tmin := Tmin, Tmax := Tmax, reducing_value := reducing_value,
      using_tau_r := using_tau_r, T_r := T_r }

/-- The constructor `SaturationAncillaryFunction::SaturationAncillaryFunction(json_code)`
(a definition cannot bear the name of its own type).  `raw` is the
storage of the object before the body runs: the vector members are then empty,
as their default constructors leave them, and the scalar members of `raw`
stand for values not yet initialised. -/
def SaturationAncillaryFunction.constructor {α : Type}
    (raw : SaturationAncillaryFunction α) (json_code : JsonCode α) :
    Except Failure (SaturationAncillaryFunction α) := do
  let this : SaturationAncillaryFunction α :=
    { raw with num_coeffs := [], den_coeffs := [], n := [], t := [], s := [] }
  let type ← json_code.type
  let this ← SaturationAncillaryFunction.constructor.read this json_code type
  let this : SaturationAncillaryFunction α :=
    if type = "rational_polynomial" then
      { this with type := .TYPE_RATIONAL_POLYNOMIAL }
    else if type = "rhoLnoexp" then
      { this with type := .TYPE_NOT_EXPONENTIAL }
    else
      { this with type := .TYPE_EXPONENTIAL }
  let this : SaturationAncillaryFunction α := { this with N := this.n.length }
  pure { this with s := this.n }

section Code

variable {α : Type} [Add α] [Sub α] [Mul α] [Div α] [Zero α] [One α] [LE α]
  [∀ x y : α, Decidable (x ≤ y)]

/-- Modelled from the spec: `is_in_closed_range(x1, x2, x)` is declared in a
header that is not part of this unit.  The spec reads it as membership of the
closed range between the two bounds, and the `TEST_CASE` of this unit looks a
pressure up on a segment whose `p_min` is above its `p_max`, so the bounds are
taken in either order: `x` lies between `x1` and `x2`. -/
def is_in_closed_range (x1 x2 x : α) : Bool :=
  (decide (x1 ≤ x) && decide (x ≤ x2)) || (decide (x2 ≤ x) && decide (x ≤ x1))

/-! ## `SaturationAncillaryFunction::evaluate` -/

/-- The loop `for (i = 0; i < N; ++i) s[i] = n[i]*pow(THETA, t[i]);`, with `k`
iterations left to run from index `i`. -/
def SaturationAncillaryFunction.evaluate.fill (L : Externals α) (THETA : α) (n t : List α) :
    Nat → Nat → List α → Except Failure (List α)
  | 0, _, s => .ok s
  | k + 1, i, s =>
    match n[i]?, t[i]? with
    | some n_i, some t_i =>
      if i < s.length then
        SaturationAncillaryFunction.evaluate.fill L THETA n t k (i + 1)
          (s.set i (n_i * L.pow THETA t_i))
      else .error .undefined
    | _, _ => .error .undefined

/-- The call `std::accumulate(s.begin(), s.end(), 0.0)`. -/
def accumulate (s : List α) (init : α) : α :=
  s.foldl (fun acc x => acc + x) init

/-- The member function `SaturationAncillaryFunction::evaluate(T)`: the value
returned and the object after the call. -/
def SaturationAncillaryFunction.evaluate (L : Externals α) (anc : SaturationAncillaryFunction α)
    (T : α) : Except Failure (α × SaturationAncillaryFunction α) :=
  if anc.type = .TYPE_NOT_SET then
    .error (.ValueError "type not set")
  else if anc.type = .TYPE_RATIONAL_POLYNOMIAL then
    .ok (L.polyEvaluate anc.num_coeffs T / L.polyEvaluate anc.den_coeffs T, anc)
  else
    let THETA := 1 - T / anc.T_r
    match SaturationAncillaryFunction.evaluate.fill L THETA anc.n anc.t anc.N 0 anc.s with
    | .error e => .error e
    | .ok s =>
      let anc := { anc with s := s }
      let summer := accumulate s 0
      if anc.type = .TYPE_NOT_EXPONENTIAL then
        .ok (anc.reducing_value * (1 + summer), anc)
      else
        let tau_r_value := if anc.using_tau_r then anc.T_r / T else 1
        .ok (anc.reducing_value * L.exp (tau_r_value * summer), anc)

/-- The method `call(T)` of the local class `solver_resid` of `invert`:
`anc->evaluate(T) - value`. -/
def SaturationAncillaryFunction.invert.solver_resid (L : Externals α)
    (anc : SaturationAncillaryFunction α) (value : α) (T : α) : Except Failure α :=
  match SaturationAncillaryFunction.evaluate L anc T with
  | .error e => .error e
  | .ok (current_value, _) => .ok (current_value - value)

/-- The member function `SaturationAncillaryFunction::invert(value)`.  The
residual is `evaluate(T) - value`; `Brent` runs on `[Tmin, Tmax]`, and an
exception it throws is caught and `Secant` runs from `Tmax` with step `-0.01`.
The residual is taken on the object as it is at the call: `evaluate` changes
only the contents of `s`, which it overwrites before reading them. -/
def SaturationAncillaryFunction.invert [Neg α] [OfScientific α] (L : Externals α)
    (anc : SaturationAncillaryFunction α) (value : α) : Except Failure α :=
  match L.Brent (SaturationAncillaryFunction.invert.solver_resid L anc value)
      anc.Tmin anc.Tmax L.DBL_EPSILON 1e-12 100 with
  | .ok T => .ok T
  | .error (.ValueError _) =>
    L.Secant (SaturationAncillaryFunction.invert.solver_resid L anc value)
      anc.Tmax (-0.01) 1e-12 100
  | .error .undefined => .error .undefined

/-! ## `MeltingLineVariables::set_limits` -/

/-- The body of the Simon loop of `set_limits`: fill `p_min`, then `p_max`. -/
def MeltingLineVariables.set_limits.simonPart (L : Externals α)
    (part : MeltingLinePiecewiseSimonSegment α) : MeltingLinePiecewiseSimonSegment α :=
  let part := { part with p_min := part.p_0 + part.a * (L.pow (part.T_min / part.T_0) part.c - 1) }
  { part with p_max := part.p_0 + part.a * (L.pow (part.T_max / part.T_0) part.c - 1) }

/-- The body of the polynomial-in-Tr loop of `set_limits`. -/
def MeltingLineVariables.set_limits.trPart (L : Externals α)
    (part : MeltingLinePiecewisePolynomialInTrSegment α) :
    MeltingLinePiecewisePolynomialInTrSegment α :=
  let part := { part with p_min := L.trEvaluate part part.T_min }
  { part with p_max := L.trEvaluate part part.T_max }

/-- The member function `MeltingLineVariables::set_limits()`: the object after
the call.  `front()`, `back()` and `parts[0]` of an empty vector are undefined. -/
def MeltingLineVariables.set_limits (L : Externals α) (m : MeltingLineVariables α) :
    Except Failure (MeltingLineVariables α) :=
  match m.type with
  | .MELTING_LINE_SIMON_TYPE =>
    let parts := m.simon.parts.map (MeltingLineVariables.set_limits.simonPart L)
    match parts.head?, parts.getLast? with
    | some front, some back =>
      .ok { m with simon := ⟨parts⟩, pmin := front.p_min, pmax := back.p_max,
                   Tmin := front.T_min, Tmax := back.T_max }
    | _, _ => .error .undefined
  | .MELTING_LINE_POLYNOMIAL_IN_TR_TYPE =>
    let parts := m.polynomial_in_Tr.parts.map (MeltingLineVariables.set_limits.trPart L)
    match parts.head?, parts.getLast? with
    | some front, some back =>
      .ok { m with polynomial_in_Tr := ⟨parts⟩, Tmin := front.T_min, pmin := front.p_min,
                   Tmax := back.T_max, pmax := back.p_max }
    | _, _ => .error .undefined
  | .MELTING_LINE_POLYNOMIAL_IN_THETA_TYPE =>
    match m.polynomial_in_Theta.parts.head?, m.polynomial_in_Theta.parts.getLast? with
    | some partmin, some partmax =>
      .ok { m with Tmin := partmin.T_0, Tmax := partmax.T_max, pmin := partmin.p_0 }
    | _, _ => .error .undefined
  | .MELTING_LINE_NOT_SET => .error (.ValueError "only Simon supported now")

/-! ## `MeltingLineVariables::evaluate` -/

/-- The Simon loop of the branch `OF == iP && GIVEN == iT`. -/
def MeltingLineVariables.evaluate.simon_p (L : Externals α) (T : α) :
    List (MeltingLinePiecewiseSimonSegment α) → Except Failure α
  | [] => .error (.ValueError "unable to calculate melting line (p,T) for Simon curve")
  | part :: rest =>
    if is_in_closed_range part.T_min part.T_max T then
      .ok (part.p_0 + part.a * (L.pow (T / part.T_0) part.c - 1))
    else MeltingLineVariables.evaluate.simon_p L T rest

/-- The polynomial-in-Tr loop of the branch `OF == iP && GIVEN == iT`. -/
def MeltingLineVariables.evaluate.tr_p (L : Externals α) (T : α) :
    List (MeltingLinePiecewisePolynomialInTrSegment α) → Except Failure α
  | [] => .error (.ValueError "unable to calculate melting line (p,T) for polynomial_in_Tr curve")
  | part :: rest =>
    if is_in_closed_range part.T_min part.T_max T then
      .ok (L.trEvaluate part T)
    else MeltingLineVariables.evaluate.tr_p L T rest

/-- The inner loop `summer += part.a[i]*pow(T/part.T_0-1, part.t[i])` over the
indices of `part.a`; reading `part.t` past its end is undefined. -/
def MeltingLineVariables.evaluate.theta_sum (L : Externals α) (x : α) :
    List α → List α → α → Except Failure α
  | [], _, summer => .ok summer
  | _ :: _, [], _ => .error .undefined
  | a_i :: a, t_i :: t, summer =>
    MeltingLineVariables.evaluate.theta_sum L x a t (summer + a_i * L.pow x t_i)

/-- The polynomial-in-theta loop of the branch `OF == iP && GIVEN == iT`. -/
def MeltingLineVariables.evaluate.theta_p (L : Externals α) (T : α) :
    List (MeltingLinePiecewisePolynomialInThetaSegment α) → Except Failure α
  | [] =>
    .error (.ValueError "unable to calculate melting line (p,T) for polynomial_in_Theta curve")
  | part :: rest =>
    if is_in_closed_range part.T_min part.T_max T then
      match MeltingLineVariables.evaluate.theta_sum L (T / part.T_0 - 1) part.a part.t 0 with
      | .error e => .error e
      | .ok summer => .ok (part.p_0 * (1 + summer))
    else MeltingLineVariables.evaluate.theta_p L T rest

/-- The Simon loop of the `else` branch (temperature from pressure). -/
def MeltingLineVariables.evaluate.simon_T (L : Externals α) (value : α) :
    List (MeltingLinePiecewiseSimonSegment α) → Except Failure α
  | [] => .error (.ValueError "unable to calculate melting line p(T) for Simon curve")
  | part :: rest =>
    let T := L.pow ((value - part.p_0) / part.a + 1) (1 / part.c) * part.T_0
    if part.T_0 ≤ T ∧ T ≤ part.T_max then .ok T
    else MeltingLineVariables.evaluate.simon_T L value rest

/-- The polynomial-in-Tr loop of the `else` branch: the first segment whose
pressure range holds `value` is solved with `Brent`, whatever the outcome. -/
def MeltingLineVariables.evaluate.tr_T [OfScientific α] (L : Externals α) (value : α) :
    List (MeltingLinePiecewisePolynomialInTrSegment α) → Except Failure α
  | [] => .error (.ValueError "unable to calculate melting line T(p) for polynomial_in_Tr curve")
  | part :: rest =>
    if is_in_closed_range part.p_min part.p_max value then
      L.Brent (fun T => .ok (value - L.trEvaluate part T)) part.T_min part.T_max
        L.DBL_EPSILON 1e-12 100
    else MeltingLineVariables.evaluate.tr_T L value rest

/-- The member function `MeltingLineVariables::evaluate(OF, GIVEN, value)`. -/
def MeltingLineVariables.evaluate [OfScientific α] (L : Externals α) (m : MeltingLineVariables α)
    (OF GIVEN : Int) (value : α) : Except Failure α :=
  if m.type = .MELTING_LINE_NOT_SET then .error (.ValueError "Melting line curve not set")
  else if OF = L.iP ∧ GIVEN = L.iT then
    let T := value
    match m.type with
    | .MELTING_LINE_SIMON_TYPE => MeltingLineVariables.evaluate.simon_p L T m.simon.parts
    | .MELTING_LINE_POLYNOMIAL_IN_TR_TYPE =>
      MeltingLineVariables.evaluate.tr_p L T m.polynomial_in_Tr.parts
    | .MELTING_LINE_POLYNOMIAL_IN_THETA_TYPE =>
      MeltingLineVariables.evaluate.theta_p L T m.polynomial_in_Theta.parts
    | .MELTING_LINE_NOT_SET => .error (.ValueError "Invalid melting line type [%d]")
  else
    match m.type with
    | .MELTING_LINE_SIMON_TYPE => MeltingLineVariables.evaluate.simon_T L value m.simon.parts
    | .MELTING_LINE_POLYNOMIAL_IN_TR_TYPE =>
      MeltingLineVariables.evaluate.tr_T L value m.polynomial_in_Tr.parts
    | _ => .error (.ValueError "Invalid melting line type T(p) [%d]")

end Code

/-! ## Sample data -/

/-- Externals with a given `pow` and `exp`, keys `iP = 1`, `iT = 0`, polynomial
evaluators that return their argument, and solvers that always fail. -/
def sampleExternals {α : Type} [Zero α] (pow : α → α → α) (exp : α → α) : Externals α where
  pow := pow
  exp := exp
  DBL_EPSILON := 0
  iP := 1
  iT := 0
  iP_ne_iT := by decide
  polyEvaluate := fun _ x => x
  trEvaluate := fun _ T => T
  Brent := fun _ _ _ _ _ _ => .error (.ValueError "Brent")
  Secant := fun _ _ _ _ _ => .error (.ValueError "Secant")

/-- A Simon segment with the given `T_min`, `T_max`, `T_0`, `p_0`, `a`, `c`
and pressure bounds not yet filled (zero). -/
def sampleSegment {α : Type} [Zero α] (T_min T_max T_0 p_0 a c : α) :
    MeltingLinePiecewiseSimonSegment α where
  T_0 := T_0
  a := a
  c := c
  p_0 := p_0
  T_max := T_max
  T_min := T_min
  p_min := 0
  p_max := 0

/-- A Simon-type melting line with the given segments and curve-level bounds
not yet filled (zero). -/
def sampleSimon {α : Type} [Zero α] (parts : List (MeltingLinePiecewiseSimonSegment α)) :
    MeltingLineVariables α where
  type := .MELTING_LINE_SIMON_TYPE
  simon := ⟨parts⟩
  polynomial_in_Tr := ⟨[]⟩
  polynomial_in_Theta := ⟨[]⟩
  Tmin := 0
  Tmax := 0
  pmin := 0
  pmax := 0

/-- A saturation ancillary of the given form with coefficients `n`, `t`, as the
constructor leaves it: `N` is the size of `n` and `s` is a copy of `n`; the
fields of the rational form are empty or zero. -/
def sampleAncillary {α : Type} [Zero α] (type : ancillaryfunctiontypes) (n t : List α)
    (using_tau_r : Bool) (reducing_value T_r : α) : SaturationAncillaryFunction α where
  num_coeffs := []
  den_coeffs := []
  n := n
  t := t
  s := n
  using_tau_r := using_tau_r
  Tmax := 0
  Tmin := 0
  reducing_value := reducing_value
  T_r := T_r
  max_abs_error := 0
  type := type
  N := n.length

/-- A `json_code` of a non-rational ancillary: the given `type`, `n`, `t`,
`Tmin`, `Tmax`, `reducing_value`, `using_tau_r`, `T_r` are read, and the
members of the rational form are absent (their accessors throw). -/
def sampleJson {α : Type} (type : String) (n t : List α) (Tmin Tmax reducing_value : α)
    (using_tau_r : Bool) (T_r : α) : JsonCode α where
  type := .ok type
  A := .error (.ValueError "A")
  B := .error (.ValueError "B")
  max_abs_error := .error (.ValueError "max_abs_error")
  n := .ok n
  t := .ok t
  Tmin := .ok Tmin
  Tmax := .ok Tmax
  reducing_value := .ok reducing_value
  using_tau_r := .ok using_tau_r
  T_r := .ok T_r

/-- A `json_code` of a rational-polynomial ancillary: the type string
`"rational_polynomial"` and the given `A`, `B`, `max_abs_error` are read, and
the members of the other forms are absent (their accessors throw). -/
def sampleRationalJson {α : Type} (A B : List α) (max_abs_error : α) : JsonCode α where
  type := .ok "rational_polynomial"
  A := .ok A
  B := .ok B
  max_abs_error := .ok max_abs_error
  n := .error (.ValueError "n")
  t := .error (.ValueError "t")
  Tmin := .error (.ValueError "Tmin")
  Tmax := .error (.ValueError "Tmax")
  reducing_value := .error (.ValueError "reducing_value")
  using_tau_r := .error (.ValueError "using_tau_r")
  T_r := .error (.ValueError "T_r")

/-- A bracketed solver that returns the upper end `b` of the bracket when the
residual there is within the tolerance `t`, and throws otherwise. -/
def endpointBrent {α : Type} [LE α] [Neg α] [∀ x y : α, Decidable (x ≤ y)]
    (f : α → Except Failure α) (_a b _macheps t : α) (_maxiter : Nat) : Except Failure α :=
  match f b with
  | .error e => .error e
  | .ok r => if -t ≤ r ∧ r ≤ t then .ok b else .error (.ValueError "endpointBrent")

/-- An open solver that returns its starting point `x0` when the residual there
is within the tolerance `tol`, and throws otherwise. -/
def startSecant {α : Type} [LE α] [Neg α] [∀ x y : α, Decidable (x ≤ y)]
    (f : α → Except Failure α) (x0 _dx tol : α) (_maxiter : Nat) : Except Failure α :=
  match f x0 with
  | .error e => .error e
  | .ok r => if -tol ≤ r ∧ r ≤ tol then .ok x0 else .error (.ValueError "startSecant")

/-- A segment of a polynomial-in-theta melting line with no terms. -/
def sampleThetaSegment {α : Type} (T_min T_max T_0 p_0 : α) :
    MeltingLinePiecewisePolynomialInThetaSegment α where
  a := []
  t := []
  T_0 := T_0
  p_0 := p_0
  T_max := T_max
  T_min := T_min

/-- A polynomial-in-theta melting line with the given segments and curve-level
bounds, the other collections empty. -/
def sampleTheta {α : Type} (parts : List (MeltingLinePiecewisePolynomialInThetaSegment α))
    (Tmin Tmax pmin pmax : α) : MeltingLineVariables α where
  type := .MELTING_LINE_POLYNOMIAL_IN_THETA_TYPE
  simon := ⟨[]⟩
  polynomial_in_Tr := ⟨[]⟩
  polynomial_in_Theta := ⟨parts⟩
  Tmin := Tmin
  Tmax := Tmax
  pmin := pmin
  pmax := pmax

/-- A segment of a polynomial-in-Tr melting line with no coefficients. -/
def sampleTrSegment {α : Type} (T_min T_max p_min p_max : α) :
    MeltingLinePiecewisePolynomialInTrSegment α where
  coefficients := []
  T_max := T_max
  T_min := T_min
  p_min := p_min
  p_max := p_max

/-- A polynomial-in-Tr melting line with the given segments, the other
collections empty and the curve-level bounds zero. -/
def sampleTr {α : Type} [Zero α] (parts : List (MeltingLinePiecewisePolynomialInTrSegment α)) :
    MeltingLineVariables α where
  type := .MELTING_LINE_POLYNOMIAL_IN_TR_TYPE
  simon := ⟨[]⟩
  polynomial_in_Tr := ⟨parts⟩
  polynomial_in_Theta := ⟨[]⟩
  Tmin := 0
  Tmax := 0
  pmin := 0
  pmax := 0

section ConstructorLemmas

/-- A sequence of two steps returns exactly when the first returns and the
second returns on its result. -/
theorem bind_eq_ok {ε β γ : Type} (x : Except ε β) (f : β → Except ε γ) (c : γ) :
    (x >>= f) = .ok c ↔ ∃ b, x = .ok b ∧ f b = .ok c := by
  cases x with
  | error e => simp [bind, Except.bind]
  | ok b => simp [bind, Except.bind]

/-- What a returning constructor leaves: the form tag chosen by the type
string, `N` the size of `n`, `s` a copy of `n`, and, in the non-rational case,
`n` and `t` as read from `json_code`. -/
theorem constructor_ok {α : Type} (raw : SaturationAncillaryFunction α) (json_code : JsonCode α)
    (anc : SaturationAncillaryFunction α)
    (h : SaturationAncillaryFunction.constructor raw json_code = .ok anc) :
    ∃ type : String, json_code.type = .ok type
      ∧ anc.type = (if type = "rational_polynomial" then .TYPE_RATIONAL_POLYNOMIAL
          else if type = "rhoLnoexp" then .TYPE_NOT_EXPONENTIAL else .TYPE_EXPONENTIAL)
      ∧ anc.N = anc.n.length ∧ anc.s = anc.n
      ∧ (type = "rational_polynomial" → anc.n = [] ∧ anc.t = [])
      ∧ (type ≠ "rational_polynomial" →
          ∃ n t, json_code.n = .ok n ∧ json_code.t = .ok t ∧ anc.n = n ∧ anc.t = t) := by
  unfold SaturationAncillaryFunction.constructor at h
  simp only [bind_eq_ok] at h
  obtain ⟨type, htype, this, hread, hanc⟩ := h
  simp only [pure, Except.pure, Except.ok.injEq] at hanc
  refine ⟨type, htype, ?_⟩
  unfold SaturationAncillaryFunction.constructor.read at hread
  by_cases hr : type = "rational_polynomial"
  · rw [if_pos hr] at hread
    simp only [bind_eq_ok] at hread
    obtain ⟨A, -, B, -, e, -, hthis⟩ := hread
    simp only [pure, Except.pure, Except.ok.injEq] at hthis
    subst hthis
    subst hanc
    simp [hr]
  · rw [if_neg hr] at hread
    simp only [bind_eq_ok] at hread
    obtain ⟨n, hn, t, ht, Tmin, -, Tmax, -, rv, -, utr, -, Tr, -, hthis⟩ := hread
    simp only [pure, Except.pure, Except.ok.injEq] at hthis
    subst hthis
    subst hanc
    refine ⟨?_, ?_, ?_, fun h => absurd h hr, fun _ => ⟨n, t, hn, ht, ?_, ?_⟩⟩
    · by_cases h2 : type = "rhoLnoexp" <;> simp [hr, h2]
    · by_cases h2 : type = "rhoLnoexp" <;> simp [hr, h2]
    · by_cases h2 : type = "rhoLnoexp" <;> simp [hr, h2]
    · by_cases h2 : type = "rhoLnoexp" <;> simp [hr, h2]
    · by_cases h2 : type = "rhoLnoexp" <;> simp [hr, h2]

/-- With the type string `"rational_polynomial"` and the three reads of the
rational form succeeding, the constructor returns: the coefficients read, the
other vectors empty, the form RationalPolynomial, `N = 0`. -/
theorem constructor_rational {α : Type} (raw : SaturationAncillaryFunction α)
    (json_code : JsonCode α) (A B : List α) (max_abs_error : α)
    (htype : json_code.type = .ok "rational_polynomial")
    (hA : json_code.A = .ok A) (hB : json_code.B = .ok B)
    (he : json_code.max_abs_error = .ok max_abs_error) :
    SaturationAncillaryFunction.constructor raw json_code
      = .ok { raw with
          num_coeffs := A, den_coeffs := B, n := [], t := [], s := [],
          max_abs_error := max_abs_error, type := .TYPE_RATIONAL_POLYNOMIAL, N := 0 } := by
  simp [SaturationAncillaryFunction.constructor, SaturationAncillaryFunction.constructor.read,
    htype, hA, hB, he, bind, Except.bind, pure, Except.pure]

/-- With a type string other than `"rational_polynomial"` and the seven reads of
the non-rational forms succeeding, the constructor returns: the values read,
`s` a copy of `n`, `N` the size of `n`, and the form NonExponential for
`"rhoLnoexp"`, Exponential otherwise. -/
theorem constructor_nonrational {α : Type} (raw : SaturationAncillaryFunction α)
    (json_code : JsonCode α) (type : String) (n t : List α) (Tmin Tmax reducing_value : α)
    (using_tau_r : Bool) (T_r : α)
    (htype : json_code.type = .ok type) (hr : type ≠ "rational_polynomial")
    (hn : json_code.n = .ok n) (ht : json_code.t = .ok t)
    (hTmin : json_code.Tmin = .ok Tmin) (hTmax : json_code.Tmax = .ok Tmax)
    (hrv : json_code.reducing_value = .ok reducing_value)
    (hutr : json_code.using_tau_r = .ok using_tau_r) (hTr : json_code.T_r = .ok T_r) :
    SaturationAncillaryFunction.constructor raw json_code
      = .ok { raw with
          num_coeffs := [], den_coeffs := [], n := n, t := t, s := n,
          Tmin := Tmin, Tmax := Tmax, reducing_value := reducing_value,
          using_tau_r := using_tau_r, T_r := T_r,
          type := if type = "rhoLnoexp" then .TYPE_NOT_EXPONENTIAL else .TYPE_EXPONENTIAL,
          N := n.length } := by
  by_cases h2 : type = "rhoLnoexp"
  · simp [SaturationAncillaryFunction.constructor, SaturationAncillaryFunction.constructor.read,
      htype, hr, h2, hn, ht, hTmin, hTmax, hrv, hutr, hTr, bind, Except.bind, pure, Except.pure]
  · simp [SaturationAncillaryFunction.constructor, SaturationAncillaryFunction.constructor.read,
      htype, hr, h2, hn, ht, hTmin, hTmax, hrv, hutr, hTr, bind, Except.bind, pure, Except.pure]

end ConstructorLemmas

section InvertLemmas

variable {α : Type} [Add α] [Sub α] [Mul α] [Div α] [Zero α] [One α]

/-- The residual of `invert` is `evaluate(T) - value`, and fails as `evaluate`
fails. -/
theorem solver_resid_eq (L : Externals α) (anc : SaturationAncillaryFunction α) (value : α) :
    SaturationAncillaryFunction.invert.solver_resid L anc value
      = fun T => (SaturationAncillaryFunction.evaluate L anc T).map (fun r => r.1 - value) := by
  funext T
  unfold SaturationAncillaryFunction.invert.solver_resid
  cases SaturationAncillaryFunction.evaluate L anc T with
  | error e => rfl
  | ok r =>
    obtain ⟨current_value, anc'⟩ := r
    rfl

end InvertLemmas

section Lemmas

set_option linter.unusedSectionVars false

variable {α : Type} [Add α] [Sub α] [Mul α] [Div α] [Zero α] [One α] [LE α]
  [∀ x y : α, Decidable (x ≤ y)]

theorem is_in_closed_range_iff (x1 x2 x : α) :
    is_in_closed_range x1 x2 x = true ↔ (x1 ≤ x ∧ x ≤ x2) ∨ (x2 ≤ x ∧ x ≤ x1) := by
  simp [is_in_closed_range]

/-- The temperature-to-pressure Simon loop returns the formula of the first
segment whose range holds `T`. -/
theorem simon_p_first (L : Externals α) (T : α) :
    ∀ (parts : List (MeltingLinePiecewiseSimonSegment α)) (i : Nat) (hi : i < parts.length),
      ((parts[i].T_min ≤ T ∧ T ≤ parts[i].T_max) ∨ (parts[i].T_max ≤ T ∧ T ≤ parts[i].T_min)) →
      (∀ j (hj : j < parts.length), j < i → ¬ ((parts[j].T_min ≤ T ∧ T ≤ parts[j].T_max)
          ∨ (parts[j].T_max ≤ T ∧ T ≤ parts[j].T_min))) →
      MeltingLineVariables.evaluate.simon_p L T parts
        = .ok (parts[i].p_0 + parts[i].a * (L.pow (T / parts[i].T_0) parts[i].c - 1))
  | [], i, hi, _, _ => by simp at hi
  | part :: rest, 0, _, hin, _ => by
    have h : is_in_closed_range part.T_min part.T_max T = true :=
      (is_in_closed_range_iff _ _ _).2 hin
    simp [MeltingLineVariables.evaluate.simon_p, h]
  | part :: rest, i + 1, hi, hin, hleast => by
    have h0 : ¬ ((part.T_min ≤ T ∧ T ≤ part.T_max) ∨ (part.T_max ≤ T ∧ T ≤ part.T_min)) :=
      hleast 0 (Nat.succ_pos _) (Nat.succ_pos _)
    have h : is_in_closed_range part.T_min part.T_max T = false := by
      rw [← Bool.not_eq_true, is_in_closed_range_iff]; exact h0
    have hi2 : i < rest.length := Nat.lt_of_succ_lt_succ hi
    have ih := simon_p_first L T rest i hi2 hin
      (fun j hj hji => hleast (j + 1) (Nat.succ_lt_succ hj) (Nat.succ_lt_succ hji))
    simpa [MeltingLineVariables.evaluate.simon_p, h] using ih

/-- The temperature-to-pressure Simon loop: it ends in its lookup error exactly
when no segment holds `T`, and a value it returns comes from a segment that
holds `T`. -/
theorem simon_p_outcome (L : Externals α) (T : α) :
    ∀ (parts : List (MeltingLinePiecewiseSimonSegment α)),
      (MeltingLineVariables.evaluate.simon_p L T parts
          = .error (.ValueError "unable to calculate melting line (p,T) for Simon curve")
        ↔ ∀ part ∈ parts, ¬ ((part.T_min ≤ T ∧ T ≤ part.T_max)
            ∨ (part.T_max ≤ T ∧ T ≤ part.T_min))) ∧
      (∀ p, MeltingLineVariables.evaluate.simon_p L T parts = .ok p →
        ∃ part ∈ parts, (part.T_min ≤ T ∧ T ≤ part.T_max) ∨ (part.T_max ≤ T ∧ T ≤ part.T_min))
  | [] => by simp [MeltingLineVariables.evaluate.simon_p]
  | part :: rest => by
    have ih := simon_p_outcome L T rest
    by_cases h : (part.T_min ≤ T ∧ T ≤ part.T_max) ∨ (part.T_max ≤ T ∧ T ≤ part.T_min)
    · have hb : is_in_closed_range part.T_min part.T_max T = true :=
        (is_in_closed_range_iff _ _ _).2 h
      simp only [MeltingLineVariables.evaluate.simon_p, hb, if_true]
      exact ⟨⟨fun hh => (by cases hh), fun hh => absurd h (hh part (List.mem_cons_self _ _))⟩,
        fun p _ => ⟨part, List.mem_cons_self _ _, h⟩⟩
    · have hb : is_in_closed_range part.T_min part.T_max T = false := by
        rw [← Bool.not_eq_true, is_in_closed_range_iff]; exact h
      simp only [MeltingLineVariables.evaluate.simon_p, hb, Bool.false_eq_true, if_false]
      refine ⟨?_, ?_⟩
      · rw [ih.1]
        constructor
        · intro hh q hq
          rcases List.mem_cons.1 hq with rfl | hq
          · exact h
          · exact hh q hq
        · intro hh q hq
          exact hh q (List.mem_cons_of_mem _ hq)
      · intro p hp
        obtain ⟨q, hq, hr⟩ := ih.2 p hp
        exact ⟨q, List.mem_cons_of_mem _ hq, hr⟩

/-- The temperature-to-pressure loop of the polynomial-in-Tr form: lookup error
exactly when no segment holds `T`; a value comes from a segment that holds `T`. -/
theorem tr_p_outcome (L : Externals α) (T : α) :
    ∀ (parts : List (MeltingLinePiecewisePolynomialInTrSegment α)),
      (MeltingLineVariables.evaluate.tr_p L T parts
          = .error (.ValueError "unable to calculate melting line (p,T) for polynomial_in_Tr curve")
        ↔ ∀ part ∈ parts, ¬ ((part.T_min ≤ T ∧ T ≤ part.T_max)
            ∨ (part.T_max ≤ T ∧ T ≤ part.T_min))) ∧
      (∀ p, MeltingLineVariables.evaluate.tr_p L T parts = .ok p →
        ∃ part ∈ parts, (part.T_min ≤ T ∧ T ≤ part.T_max) ∨ (part.T_max ≤ T ∧ T ≤ part.T_min))
  | [] => by simp [MeltingLineVariables.evaluate.tr_p]
  | part :: rest => by
    have ih := tr_p_outcome L T rest
    by_cases h : (part.T_min ≤ T ∧ T ≤ part.T_max) ∨ (part.T_max ≤ T ∧ T ≤ part.T_min)
    · have hb : is_in_closed_range part.T_min part.T_max T = true :=
        (is_in_closed_range_iff _ _ _).2 h
      simp only [MeltingLineVariables.evaluate.tr_p, hb, if_true]
      exact ⟨⟨fun hh => (by cases hh), fun hh => absurd h (hh part (List.mem_cons_self _ _))⟩,
        fun p _ => ⟨part, List.mem_cons_self _ _, h⟩⟩
    · have hb : is_in_closed_range part.T_min part.T_max T = false := by
        rw [← Bool.not_eq_true, is_in_closed_range_iff]; exact h
      simp only [MeltingLineVariables.evaluate.tr_p, hb, Bool.false_eq_true, if_false]
      refine ⟨?_, ?_⟩
      · rw [ih.1]
        constructor
        · intro hh q hq
          rcases List.mem_cons.1 hq with rfl | hq
          · exact h
          · exact hh q hq
        · intro hh q hq
          exact hh q (List.mem_cons_of_mem _ hq)
      · intro p hp
        obtain ⟨q, hq, hr⟩ := ih.2 p hp
        exact ⟨q, List.mem_cons_of_mem _ hq, hr⟩

/-- The inner sum of the polynomial-in-theta form never throws a `ValueError`. -/
theorem theta_sum_ne_ValueError (L : Externals α) (x : α) (msg : String) :
    ∀ (a t : List α) (summer : α),
      MeltingLineVariables.evaluate.theta_sum L x a t summer ≠ .error (.ValueError msg)
  | [], _, _ => by simp [MeltingLineVariables.evaluate.theta_sum]
  | _ :: _, [], _ => by simp [MeltingLineVariables.evaluate.theta_sum]
  | a_i :: a, t_i :: t, summer => by
    simpa [MeltingLineVariables.evaluate.theta_sum] using
      theta_sum_ne_ValueError L x msg a t (summer + a_i * L.pow x t_i)

/-- The temperature-to-pressure loop of the polynomial-in-theta form: lookup
error exactly when no segment holds `T`; a value comes from a segment that
holds `T`. -/
theorem theta_p_outcome (L : Externals α) (T : α) :
    ∀ (parts : List (MeltingLinePiecewisePolynomialInThetaSegment α)),
      (MeltingLineVariables.evaluate.theta_p L T parts
          = .error (.ValueError
              "unable to calculate melting line (p,T) for polynomial_in_Theta curve")
        ↔ ∀ part ∈ parts, ¬ ((part.T_min ≤ T ∧ T ≤ part.T_max)
            ∨ (part.T_max ≤ T ∧ T ≤ part.T_min))) ∧
      (∀ p, MeltingLineVariables.evaluate.theta_p L T parts = .ok p →
        ∃ part ∈ parts, (part.T_min ≤ T ∧ T ≤ part.T_max) ∨ (part.T_max ≤ T ∧ T ≤ part.T_min))
  | [] => by simp [MeltingLineVariables.evaluate.theta_p]
  | part :: rest => by
    have ih := theta_p_outcome L T rest
    by_cases h : (part.T_min ≤ T ∧ T ≤ part.T_max) ∨ (part.T_max ≤ T ∧ T ≤ part.T_min)
    · have hb : is_in_closed_range part.T_min part.T_max T = true :=
        (is_in_closed_range_iff _ _ _).2 h
      simp only [MeltingLineVariables.evaluate.theta_p, hb, if_true]
      refine ⟨⟨fun hh => ?_, fun hh => absurd h (hh part (List.mem_cons_self _ _))⟩,
        fun p _ => ⟨part, List.mem_cons_self _ _, h⟩⟩
      have hne := theta_sum_ne_ValueError L (T / part.T_0 - 1)
        "unable to calculate melting line (p,T) for polynomial_in_Theta curve" part.a part.t 0
      cases hs : MeltingLineVariables.evaluate.theta_sum L (T / part.T_0 - 1) part.a part.t 0 with
      | error e =>
        rw [hs] at hh hne
        simp only [Except.error.injEq] at hh
        exact absurd (congrArg Except.error hh) hne
      | ok v => rw [hs] at hh; cases hh
    · have hb : is_in_closed_range part.T_min part.T_max T = false := by
        rw [← Bool.not_eq_true, is_in_closed_range_iff]; exact h
      simp only [MeltingLineVariables.evaluate.theta_p, hb, Bool.false_eq_true, if_false]
      refine ⟨?_, ?_⟩
      · rw [ih.1]
        constructor
        · intro hh q hq
          rcases List.mem_cons.1 hq with rfl | hq
          · exact h
          · exact hh q hq
        · intro hh q hq
          exact hh q (List.mem_cons_of_mem _ hq)
      · intro p hp
        obtain ⟨q, hq, hr⟩ := ih.2 p hp
        exact ⟨q, List.mem_cons_of_mem _ hq, hr⟩

/-- The pressure-to-temperature Simon loop returns the inverted temperature of
the first segment that accepts it. -/
theorem simon_T_first (L : Externals α) (p : α) :
    ∀ (parts : List (MeltingLinePiecewiseSimonSegment α)) (i : Nat) (hi : i < parts.length),
      (parts[i].T_0 ≤ L.pow ((p - parts[i].p_0) / parts[i].a + 1) (1 / parts[i].c) * parts[i].T_0
        ∧ L.pow ((p - parts[i].p_0) / parts[i].a + 1) (1 / parts[i].c) * parts[i].T_0
            ≤ parts[i].T_max) →
      (∀ j (hj : j < parts.length), j < i →
        ¬ (parts[j].T_0
              ≤ L.pow ((p - parts[j].p_0) / parts[j].a + 1) (1 / parts[j].c) * parts[j].T_0
          ∧ L.pow ((p - parts[j].p_0) / parts[j].a + 1) (1 / parts[j].c) * parts[j].T_0
              ≤ parts[j].T_max)) →
      MeltingLineVariables.evaluate.simon_T L p parts
        = .ok (L.pow ((p - parts[i].p_0) / parts[i].a + 1) (1 / parts[i].c) * parts[i].T_0)
  | [], i, hi, _, _ => by simp at hi
  | part :: rest, 0, _, hin, _ => by
    have hin2 : part.T_0 ≤ L.pow ((p - part.p_0) / part.a + 1) (1 / part.c) * part.T_0
        ∧ L.pow ((p - part.p_0) / part.a + 1) (1 / part.c) * part.T_0 ≤ part.T_max := hin
    simp only [MeltingLineVariables.evaluate.simon_T, hin2, and_self, if_true]
    rfl
  | part :: rest, i + 1, hi, hin, hleast => by
    have h0 : ¬ (part.T_0 ≤ L.pow ((p - part.p_0) / part.a + 1) (1 / part.c) * part.T_0
        ∧ L.pow ((p - part.p_0) / part.a + 1) (1 / part.c) * part.T_0 ≤ part.T_max) :=
      hleast 0 (Nat.succ_pos _) (Nat.succ_pos _)
    have hi2 : i < rest.length := Nat.lt_of_succ_lt_succ hi
    have ih := simon_T_first L p rest i hi2 hin
      (fun j hj hji => hleast (j + 1) (Nat.succ_lt_succ hj) (Nat.succ_lt_succ hji))
    simp only [MeltingLineVariables.evaluate.simon_T, h0, if_false]
    exact ih

/-- The pressure-to-temperature Simon loop: lookup error exactly when no
segment accepts its inverted temperature; a returned temperature is the
inverted temperature of a segment that accepts it. -/
theorem simon_T_outcome (L : Externals α) (p : α) :
    ∀ (parts : List (MeltingLinePiecewiseSimonSegment α)),
      (MeltingLineVariables.evaluate.simon_T L p parts
          = .error (.ValueError "unable to calculate melting line p(T) for Simon curve")
        ↔ ∀ part ∈ parts,
            ¬ (part.T_0 ≤ L.pow ((p - part.p_0) / part.a + 1) (1 / part.c) * part.T_0
              ∧ L.pow ((p - part.p_0) / part.a + 1) (1 / part.c) * part.T_0 ≤ part.T_max)) ∧
      (∀ T, MeltingLineVariables.evaluate.simon_T L p parts = .ok T →
        ∃ part ∈ parts,
          T = L.pow ((p - part.p_0) / part.a + 1) (1 / part.c) * part.T_0 ∧
          part.T_0 ≤ T ∧ T ≤ part.T_max)
  | [] => by simp [MeltingLineVariables.evaluate.simon_T]
  | part :: rest => by
    have ih := simon_T_outcome L p rest
    by_cases h : part.T_0 ≤ L.pow ((p - part.p_0) / part.a + 1) (1 / part.c) * part.T_0
        ∧ L.pow ((p - part.p_0) / part.a + 1) (1 / part.c) * part.T_0 ≤ part.T_max
    · simp only [MeltingLineVariables.evaluate.simon_T, h, and_self, if_true]
      refine ⟨⟨fun hh => (by cases hh), fun hh => absurd h (hh part (List.mem_cons_self _ _))⟩,
        fun T hT => ⟨part, List.mem_cons_self _ _, ?_⟩⟩
      simp only [Except.ok.injEq] at hT
      subst hT
      exact ⟨rfl, h⟩
    · simp only [MeltingLineVariables.evaluate.simon_T, h, if_false]
      refine ⟨?_, ?_⟩
      · rw [ih.1]
        constructor
        · intro hh q hq
          rcases List.mem_cons.1 hq with rfl | hq
          · exact h
          · exact hh q hq
        · intro hh q hq
          exact hh q (List.mem_cons_of_mem _ hq)
      · intro T hT
        obtain ⟨q, hq, hr⟩ := ih.2 T hT
        exact ⟨q, List.mem_cons_of_mem _ hq, hr⟩

/-- A temperature returned by the pressure-to-temperature Simon loop is the
inverted temperature of the segment of least index that accepts its own. -/
theorem simon_T_ok_index (L : Externals α) (p T : α) :
    ∀ (parts : List (MeltingLinePiecewiseSimonSegment α)),
      MeltingLineVariables.evaluate.simon_T L p parts = .ok T →
      ∃ (i : Nat) (hi : i < parts.length),
        T = L.pow ((p - parts[i].p_0) / parts[i].a + 1) (1 / parts[i].c) * parts[i].T_0 ∧
        (parts[i].T_0 ≤ T ∧ T ≤ parts[i].T_max) ∧
        (∀ j (hj : j < parts.length), j < i →
          ¬ (parts[j].T_0
                ≤ L.pow ((p - parts[j].p_0) / parts[j].a + 1) (1 / parts[j].c) * parts[j].T_0
            ∧ L.pow ((p - parts[j].p_0) / parts[j].a + 1) (1 / parts[j].c) * parts[j].T_0
                ≤ parts[j].T_max))
  | [], h => by simp [MeltingLineVariables.evaluate.simon_T] at h
  | part :: rest, h => by
    by_cases hacc : part.T_0 ≤ L.pow ((p - part.p_0) / part.a + 1) (1 / part.c) * part.T_0
        ∧ L.pow ((p - part.p_0) / part.a + 1) (1 / part.c) * part.T_0 ≤ part.T_max
    · simp only [MeltingLineVariables.evaluate.simon_T, hacc, and_self, if_true,
        Except.ok.injEq] at h
      subst h
      exact ⟨0, Nat.succ_pos _, rfl, hacc, fun j _ hj => absurd hj (Nat.not_lt_zero j)⟩
    · simp only [MeltingLineVariables.evaluate.simon_T, hacc, if_false] at h
      obtain ⟨i, hi, hT, hin, hleast⟩ := simon_T_ok_index L p T rest h
      refine ⟨i + 1, Nat.succ_lt_succ hi, hT, hin, ?_⟩
      intro j hj hji
      cases j with
      | zero => exact hacc
      | succ j => exact hleast j (Nat.lt_of_succ_lt_succ hj) (Nat.lt_of_succ_lt_succ hji)

/-- The pair `(iT, iP)` is not the pair `(iP, iT)`. -/
theorem keys_T_from_p (L : Externals α) : ¬ (L.iT = L.iP ∧ L.iP = L.iT) :=
  fun h => L.iP_ne_iT h.2

/-- On a Simon line every query other than `(iP, iT)` runs the
pressure-to-temperature loop. -/
theorem evaluate_simon_else [OfScientific α] (L : Externals α) (m : MeltingLineVariables α)
    (hm : m.type = .MELTING_LINE_SIMON_TYPE) (OF GIVEN : Int)
    (hk : ¬ (OF = L.iP ∧ GIVEN = L.iT)) (value : α) :
    MeltingLineVariables.evaluate L m OF GIVEN value
      = MeltingLineVariables.evaluate.simon_T L value m.simon.parts := by
  simp only [MeltingLineVariables.evaluate, hm, hk, if_false]
  simp

/-- On a Simon line the query `(iP, iT)` runs the temperature-to-pressure loop. -/
theorem evaluate_simon_p [OfScientific α] (L : Externals α) (m : MeltingLineVariables α)
    (hm : m.type = .MELTING_LINE_SIMON_TYPE) (T : α) :
    MeltingLineVariables.evaluate L m L.iP L.iT T
      = MeltingLineVariables.evaluate.simon_p L T m.simon.parts := by
  simp [MeltingLineVariables.evaluate, hm]

/-- Every query other than `(iP, iT)` is answered as the query `(iT, iP)`. -/
theorem evaluate_else_eq [OfScientific α] (L : Externals α) (m : MeltingLineVariables α)
    (OF GIVEN : Int) (hk : ¬ (OF = L.iP ∧ GIVEN = L.iT)) (value : α) :
    MeltingLineVariables.evaluate L m OF GIVEN value
      = MeltingLineVariables.evaluate L m L.iT L.iP value := by
  simp only [MeltingLineVariables.evaluate, hk, keys_T_from_p L, if_false]

/-- What the Simon loop body of `set_limits` leaves in a segment: the two
pressure bounds are the closed form at `T_min` and `T_max`, the other fields
are kept. -/
theorem simonPart_fields (L : Externals α) (part : MeltingLinePiecewiseSimonSegment α) :
    (MeltingLineVariables.set_limits.simonPart L part).p_min
        = part.p_0 + part.a * (L.pow (part.T_min / part.T_0) part.c - 1)
    ∧ (MeltingLineVariables.set_limits.simonPart L part).p_max
        = part.p_0 + part.a * (L.pow (part.T_max / part.T_0) part.c - 1)
    ∧ (MeltingLineVariables.set_limits.simonPart L part).T_0 = part.T_0
    ∧ (MeltingLineVariables.set_limits.simonPart L part).a = part.a
    ∧ (MeltingLineVariables.set_limits.simonPart L part).c = part.c
    ∧ (MeltingLineVariables.set_limits.simonPart L part).p_0 = part.p_0
    ∧ (MeltingLineVariables.set_limits.simonPart L part).T_max = part.T_max
    ∧ (MeltingLineVariables.set_limits.simonPart L part).T_min = part.T_min :=
  ⟨rfl, rfl, rfl, rfl, rfl, rfl, rfl, rfl⟩

/-- On a Simon line with at least one segment `set_limits` returns: the loop
body is applied to every segment and the curve-level bounds are read from the
first and the last of the new segments. -/
theorem set_limits_simon (L : Externals α) (m : MeltingLineVariables α)
    (hm : m.type = .MELTING_LINE_SIMON_TYPE) (hne : m.simon.parts ≠ []) :
    ∃ (m' : MeltingLineVariables α) (first last : MeltingLinePiecewiseSimonSegment α),
      MeltingLineVariables.set_limits L m = .ok m'
      ∧ m'.type = .MELTING_LINE_SIMON_TYPE
      ∧ m'.simon.parts = m.simon.parts.map (MeltingLineVariables.set_limits.simonPart L)
      ∧ m'.simon.parts.head? = some first
      ∧ m'.simon.parts.getLast? = some last
      ∧ m'.Tmin = first.T_min ∧ m'.pmin = first.p_min
      ∧ m'.Tmax = last.T_max ∧ m'.pmax = last.p_max := by
  have hne' : m.simon.parts.map (MeltingLineVariables.set_limits.simonPart L) ≠ [] := by
    simpa using hne
  have hh := List.head?_eq_head hne'
  have hl := List.getLast?_eq_getLast _ hne'
  refine ⟨{ m with
      simon := ⟨m.simon.parts.map (MeltingLineVariables.set_limits.simonPart L)⟩,
      pmin := ((m.simon.parts.map (MeltingLineVariables.set_limits.simonPart L)).head hne').p_min,
      pmax :=
        ((m.simon.parts.map (MeltingLineVariables.set_limits.simonPart L)).getLast hne').p_max,
      Tmin := ((m.simon.parts.map (MeltingLineVariables.set_limits.simonPart L)).head hne').T_min,
      Tmax :=
        ((m.simon.parts.map (MeltingLineVariables.set_limits.simonPart L)).getLast hne').T_max },
    (m.simon.parts.map (MeltingLineVariables.set_limits.simonPart L)).head hne',
    (m.simon.parts.map (MeltingLineVariables.set_limits.simonPart L)).getLast hne',
    ?_, ?_, ?_, ?_, ?_, ?_, ?_, ?_, ?_⟩
  · simp only [MeltingLineVariables.set_limits, hm, hh, hl]
  · exact hm
  · rfl
  · exact hh
  · exact hl
  · rfl
  · rfl
  · rfl
  · rfl

/-- On a Simon line, whatever `set_limits` returns has the Simon form and the
segments the loop body makes. -/
theorem set_limits_simon_ok (L : Externals α) (m m' : MeltingLineVariables α)
    (hm : m.type = .MELTING_LINE_SIMON_TYPE)
    (hset : MeltingLineVariables.set_limits L m = .ok m') :
    m'.type = .MELTING_LINE_SIMON_TYPE
    ∧ m'.simon.parts = m.simon.parts.map (MeltingLineVariables.set_limits.simonPart L) := by
  by_cases hne : m.simon.parts = []
  · simp [MeltingLineVariables.set_limits, hm, hne] at hset
  · obtain ⟨m2, _, _, h2, ht, hp, _⟩ := set_limits_simon L m hm hne
    rw [h2] at hset
    simp only [Except.ok.injEq] at hset
    subst hset
    exact ⟨ht, hp⟩

/-- The form tag is kept by `set_limits`. -/
theorem set_limits_type (L : Externals α) (m m' : MeltingLineVariables α)
    (hset : MeltingLineVariables.set_limits L m = .ok m') : m'.type = m.type := by
  unfold MeltingLineVariables.set_limits at hset
  split at hset
  · simp only at hset
    split at hset
    · simp only [Except.ok.injEq] at hset; subst hset; rfl
    · cases hset
  · simp only at hset
    split at hset
    · simp only [Except.ok.injEq] at hset; subst hset; rfl
    · cases hset
  · split at hset
    · simp only [Except.ok.injEq] at hset; subst hset; rfl
    · cases hset
  · cases hset

/-- The pressure-to-temperature loop of the polynomial-in-Tr form ends in its
lookup error when no segment's pressure range holds the value. -/
theorem tr_T_outside [OfScientific α] (L : Externals α) (p : α) :
    ∀ (parts : List (MeltingLinePiecewisePolynomialInTrSegment α)),
      (∀ part ∈ parts, ¬ ((part.p_min ≤ p ∧ p ≤ part.p_max) ∨ (part.p_max ≤ p ∧ p ≤ part.p_min))) →
      MeltingLineVariables.evaluate.tr_T L p parts
        = .error (.ValueError "unable to calculate melting line T(p) for polynomial_in_Tr curve")
  | [], _ => rfl
  | part :: rest, h => by
    have hb : is_in_closed_range part.p_min part.p_max p = false := by
      rw [← Bool.not_eq_true, is_in_closed_range_iff]
      exact h part (List.mem_cons_self _ _)
    simp only [MeltingLineVariables.evaluate.tr_T, hb, Bool.false_eq_true, if_false]
    exact tr_T_outside L p rest (fun q hq => h q (List.mem_cons_of_mem _ hq))

/-- The loop of `SaturationAncillaryFunction::evaluate`, started at index
`s1.length` with the entries before it already written: it writes the `k`
entries that are left, each `n_i * pow(THETA, t_i)`, and touches nothing else. -/
theorem fill_append (L : Externals α) (THETA : α) :
    ∀ (k : Nat) (n1 n2 t1 t2 s1 s2 : List α),
      n1.length = s1.length → t1.length = s1.length →
      n2.length = k → t2.length = k → s2.length = k →
      SaturationAncillaryFunction.evaluate.fill L THETA (n1 ++ n2) (t1 ++ t2) k s1.length
          (s1 ++ s2)
        = .ok (s1 ++ List.zipWith (fun n_i t_i => n_i * L.pow THETA t_i) n2 t2)
  | 0, n1, n2, t1, t2, s1, s2, _, _, hn2, ht2, hs2 => by
    have e1 : n2 = [] := List.length_eq_zero.1 hn2
    have e3 : s2 = [] := List.length_eq_zero.1 hs2
    subst e1 e3
    simp [SaturationAncillaryFunction.evaluate.fill]
  | k + 1, n1, n2, t1, t2, s1, s2, hn1, ht1, hn2, ht2, hs2 => by
    match n2, t2, s2, hn2, ht2, hs2 with
    | a :: n2, b :: t2, c :: s2, hn2, ht2, hs2 =>
      have hn2' : n2.length = k := by simpa using hn2
      have ht2' : t2.length = k := by simpa using ht2
      have hs2' : s2.length = k := by simpa using hs2
      have hna : (n1 ++ a :: n2)[s1.length]? = some a := by
        rw [List.getElem?_append_right (le_of_eq hn1), hn1]; simp
      have htb : (t1 ++ b :: t2)[s1.length]? = some b := by
        rw [List.getElem?_append_right (le_of_eq ht1), ht1]; simp
      have hlt : s1.length < (s1 ++ c :: s2).length := by simp
      have hset : (s1 ++ c :: s2).set s1.length (a * L.pow THETA b)
          = (s1 ++ [a * L.pow THETA b]) ++ s2 := by
        simp [List.set_append]
      have ih := fill_append L THETA k (n1 ++ [a]) n2 (t1 ++ [b]) t2
        (s1 ++ [a * L.pow THETA b]) s2 (by simp [hn1]) (by simp [ht1]) hn2' ht2' hs2'
      have hlen : (s1 ++ [a * L.pow THETA b]).length = s1.length + 1 := by simp
      rw [hlen] at ih
      simp only [List.append_assoc, List.singleton_append] at ih
      simp only [SaturationAncillaryFunction.evaluate.fill, hna, htb, hlt, if_true, hset,
        List.append_assoc, List.singleton_append, List.zipWith_cons_cons]
      exact ih

/-- With `n`, `t`, `s` all of size `N`, the loop of
`SaturationAncillaryFunction::evaluate` leaves in `s` the terms
`n_i * pow(THETA, t_i)`, `i < N`, in order. -/
theorem fill_all (L : Externals α) (THETA : α) (n t s : List α) (N : Nat)
    (hn : n.length = N) (ht : t.length = N) (hs : s.length = N) :
    SaturationAncillaryFunction.evaluate.fill L THETA n t N 0 s
      = .ok (List.zipWith (fun n_i t_i => n_i * L.pow THETA t_i) n t) := by
  have h := fill_append L THETA N [] n [] t [] s rfl rfl hn ht hs
  simpa using h

/-- The loop of `SaturationAncillaryFunction::evaluate` throws no `ValueError`. -/
theorem fill_ne_ValueError (L : Externals α) (THETA : α) (n t : List α) (msg : String) :
    ∀ (k i : Nat) (s : List α),
      SaturationAncillaryFunction.evaluate.fill L THETA n t k i s ≠ .error (.ValueError msg)
  | 0, _, _ => by simp [SaturationAncillaryFunction.evaluate.fill]
  | k + 1, i, s => by
    unfold SaturationAncillaryFunction.evaluate.fill
    cases hn : n[i]? with
    | none => simp
    | some n_i =>
      cases ht : t[i]? with
      | none => simp
      | some t_i =>
        by_cases hlt : i < s.length
        · simp only [hlt, if_true]
          exact fill_ne_ValueError L THETA n t msg k (i + 1) _
        · simp [hlt]

/-- The error "type not set" is thrown by `evaluate` only on the form `Unset`. -/
theorem evaluate_ne_type_not_set (L : Externals α) (anc : SaturationAncillaryFunction α)
    (h : anc.type ≠ .TYPE_NOT_SET) (T : α) :
    SaturationAncillaryFunction.evaluate L anc T ≠ .error (.ValueError "type not set") := by
  unfold SaturationAncillaryFunction.evaluate
  rw [if_neg h]
  by_cases h2 : anc.type = .TYPE_RATIONAL_POLYNOMIAL
  · rw [if_pos h2]; simp
  · rw [if_neg h2]
    have hne := fill_ne_ValueError L (1 - T / anc.T_r) anc.n anc.t "type not set" anc.N 0 anc.s
    intro hcontra
    simp only at hcontra
    cases hf : SaturationAncillaryFunction.evaluate.fill L (1 - T / anc.T_r) anc.n anc.t
        anc.N 0 anc.s with
    | error e =>
      rw [hf] at hcontra hne
      simp only [Except.error.injEq] at hcontra
      exact hne (congrArg Except.error hcontra)
    | ok s =>
      rw [hf] at hcontra
      simp only at hcontra
      split at hcontra <;> cases hcontra

/-- The outcome of `evaluate` on a non-rational ancillary whose `n`, `t`, `s`
have size `N`: the terms are left in `s` and the value is built from their sum. -/
theorem evaluate_nonrational (L : Externals α) (anc : SaturationAncillaryFunction α)
    (h1 : anc.type ≠ .TYPE_NOT_SET) (h2 : anc.type ≠ .TYPE_RATIONAL_POLYNOMIAL)
    (hn : anc.n.length = anc.N) (ht : anc.t.length = anc.N) (hs : anc.s.length = anc.N)
    (T : α) :
    SaturationAncillaryFunction.evaluate L anc T
      = .ok (
          (if anc.type = .TYPE_NOT_EXPONENTIAL then
            anc.reducing_value
              * (1 + accumulate (List.zipWith (fun n_i t_i => n_i * L.pow (1 - T / anc.T_r) t_i)
                        anc.n anc.t) 0)
          else
            anc.reducing_value
              * L.exp ((if anc.using_tau_r = true then anc.T_r / T else 1)
                  * accumulate (List.zipWith (fun n_i t_i => n_i * L.pow (1 - T / anc.T_r) t_i)
                        anc.n anc.t) 0)),
          { anc with
            s := List.zipWith (fun n_i t_i => n_i * L.pow (1 - T / anc.T_r) t_i)
                  anc.n anc.t }) := by
  have hfill := fill_all L (1 - T / anc.T_r) anc.n anc.t anc.s anc.N hn ht hs
  simp only [SaturationAncillaryFunction.evaluate, h1, h2, hfill, if_false]
  by_cases h3 : anc.type = .TYPE_NOT_EXPONENTIAL
  · simp [h3]
  · simp [h3]

/-- The pressure-to-temperature loop of the polynomial-in-Tr form is the
bracketed solve on the first segment whose pressure range holds the value. -/
theorem tr_T_first [OfScientific α] (L : Externals α) (p : α) :
    ∀ (parts : List (MeltingLinePiecewisePolynomialInTrSegment α)) (i : Nat)
      (hi : i < parts.length),
      ((parts[i].p_min ≤ p ∧ p ≤ parts[i].p_max) ∨ (parts[i].p_max ≤ p ∧ p ≤ parts[i].p_min)) →
      (∀ j (hj : j < parts.length), j < i → ¬ ((parts[j].p_min ≤ p ∧ p ≤ parts[j].p_max)
          ∨ (parts[j].p_max ≤ p ∧ p ≤ parts[j].p_min))) →
      MeltingLineVariables.evaluate.tr_T L p parts
        = L.Brent (fun T => .ok (p - L.trEvaluate parts[i] T)) parts[i].T_min parts[i].T_max
            L.DBL_EPSILON 1e-12 100
  | [], i, hi, _, _ => by simp at hi
  | part :: rest, 0, _, hin, _ => by
    have h : is_in_closed_range part.p_min part.p_max p = true :=
      (is_in_closed_range_iff _ _ _).2 hin
    simp [MeltingLineVariables.evaluate.tr_T, h]
  | part :: rest, i + 1, hi, hin, hleast => by
    have h0 : ¬ ((part.p_min ≤ p ∧ p ≤ part.p_max) ∨ (part.p_max ≤ p ∧ p ≤ part.p_min)) :=
      hleast 0 (Nat.succ_pos _) (Nat.succ_pos _)
    have h : is_in_closed_range part.p_min part.p_max p = false := by
      rw [← Bool.not_eq_true, is_in_closed_range_iff]; exact h0
    have hi2 : i < rest.length := Nat.lt_of_succ_lt_succ hi
    have ih := tr_T_first L p rest i hi2 hin
      (fun j hj hji => hleast (j + 1) (Nat.succ_lt_succ hj) (Nat.succ_lt_succ hji))
    simpa [MeltingLineVariables.evaluate.tr_T, h] using ih

/-- On a polynomial-in-Tr line every query other than `(iP, iT)` runs the
pressure-to-temperature loop. -/
theorem evaluate_tr_else [OfScientific α] (L : Externals α) (m : MeltingLineVariables α)
    (hm : m.type = .MELTING_LINE_POLYNOMIAL_IN_TR_TYPE) (OF GIVEN : Int)
    (hk : ¬ (OF = L.iP ∧ GIVEN = L.iT)) (value : α) :
    MeltingLineVariables.evaluate L m OF GIVEN value
      = MeltingLineVariables.evaluate.tr_T L value m.polynomial_in_Tr.parts := by
  simp only [MeltingLineVariables.evaluate, hm, hk, if_false]
  simp

/-- The loop of `SaturationAncillaryFunction::evaluate` does not read what it
finds in the entries it has yet to write: two vectors that agree before the
index `s0.length` and have the same size give the same outcome. -/
theorem fill_scratch (L : Externals α) (THETA : α) (n t : List α) :
    ∀ (k : Nat) (s0 r1 r2 : List α), r1.length = k → r2.length = k →
      SaturationAncillaryFunction.evaluate.fill L THETA n t k s0.length (s0 ++ r1)
        = SaturationAncillaryFunction.evaluate.fill L THETA n t k s0.length (s0 ++ r2)
  | 0, s0, r1, r2, h1, h2 => by
    have e1 : r1 = [] := List.length_eq_zero.1 h1
    have e2 : r2 = [] := List.length_eq_zero.1 h2
    subst e1 e2
    rfl
  | k + 1, s0, r1, r2, h1, h2 => by
    match r1, r2, h1, h2 with
    | c1 :: r1, c2 :: r2, h1, h2 =>
      have h1' : r1.length = k := by simpa using h1
      have h2' : r2.length = k := by simpa using h2
      unfold SaturationAncillaryFunction.evaluate.fill
      cases hn : n[s0.length]? with
      | none => rfl
      | some n_i =>
        cases ht : t[s0.length]? with
        | none => rfl
        | some t_i =>
          have hlt1 : s0.length < (s0 ++ c1 :: r1).length := by simp
          have hlt2 : s0.length < (s0 ++ c2 :: r2).length := by simp
          have hset1 : (s0 ++ c1 :: r1).set s0.length (n_i * L.pow THETA t_i)
              = (s0 ++ [n_i * L.pow THETA t_i]) ++ r1 := by simp [List.set_append]
          have hset2 : (s0 ++ c2 :: r2).set s0.length (n_i * L.pow THETA t_i)
              = (s0 ++ [n_i * L.pow THETA t_i]) ++ r2 := by simp [List.set_append]
          have ih := fill_scratch L THETA n t k (s0 ++ [n_i * L.pow THETA t_i]) r1 r2 h1' h2'
          have hlen : (s0 ++ [n_i * L.pow THETA t_i]).length = s0.length + 1 := by simp
          rw [hlen] at ih
          simp only [hlt1, hlt2, if_true, hset1, hset2]
          exact ih

/-- On a polynomial-in-theta line with at least one segment `set_limits`
returns the object with `Tmin`, `Tmax`, `pmin` replaced and nothing else. -/
theorem set_limits_theta (L : Externals α) (m : MeltingLineVariables α)
    (hm : m.type = .MELTING_LINE_POLYNOMIAL_IN_THETA_TYPE)
    (hne : m.polynomial_in_Theta.parts ≠ []) :
    MeltingLineVariables.set_limits L m
      = .ok { m with
          Tmin := (m.polynomial_in_Theta.parts.head hne).T_0,
          Tmax := (m.polynomial_in_Theta.parts.getLast hne).T_max,
          pmin := (m.polynomial_in_Theta.parts.head hne).p_0 } := by
  have hh := List.head?_eq_head hne
  have hl := List.getLast?_eq_getLast _ hne
  simp only [MeltingLineVariables.set_limits, hm, hh, hl]

end Lemmas

section RealLemmas

/-- Over the reals, for a base that is not negative, raising to `1/c` and then
to `c` gives the base back. -/
theorem rpow_inv_rpow (x c : ℝ) (hx : 0 ≤ x) (hc : c ≠ 0) : (x ^ (1 / c)) ^ c = x := by
  rw [← Real.rpow_mul hx, one_div, inv_mul_cancel₀ hc, Real.rpow_one]

/-- Over the reals, for a base that is not negative, raising to `c` and then
to `1/c` gives the base back. -/
theorem rpow_rpow_inv (y c : ℝ) (hy : 0 ≤ y) (hc : c ≠ 0) : (y ^ c) ^ (1 / c) = y := by
  rw [← Real.rpow_mul hy, one_div, mul_inv_cancel₀ hc, Real.rpow_one]

/-- The closed form of a Simon segment, at the temperature its inversion gives
for `p`, is `p`, when the base `(p - p_0)/a + 1` of the inversion is not
negative. -/
theorem simon_closed_of_inverse (L : Externals ℝ)
    (hpow : ∀ x y : ℝ, 0 ≤ x → L.pow x y = x ^ y)
    (part : MeltingLinePiecewiseSimonSegment ℝ) (p : ℝ)
    (ha : part.a ≠ 0) (hc : part.c ≠ 0) (hT0 : 0 < part.T_0)
    (hx : 0 ≤ (p - part.p_0) / part.a + 1) :
    part.p_0 + part.a * (L.pow
      (L.pow ((p - part.p_0) / part.a + 1) (1 / part.c) * part.T_0 / part.T_0) part.c - 1)
      = p := by
  have hT0ne : part.T_0 ≠ 0 := ne_of_gt hT0
  rw [hpow _ _ hx, mul_div_assoc, div_self hT0ne, mul_one,
    hpow _ _ (Real.rpow_nonneg hx _), rpow_inv_rpow _ _ hx hc]
  field_simp

/-- The inversion of a Simon segment, at the pressure its closed form gives
for a temperature `T` that is not negative, is `T`. -/
theorem simon_inverse_of_closed (L : Externals ℝ)
    (hpow : ∀ x y : ℝ, 0 ≤ x → L.pow x y = x ^ y)
    (part : MeltingLinePiecewiseSimonSegment ℝ) (T : ℝ)
    (ha : part.a ≠ 0) (hc : part.c ≠ 0) (hT0 : 0 < part.T_0) (hT : 0 ≤ T) :
    L.pow ((part.p_0 + part.a * (L.pow (T / part.T_0) part.c - 1) - part.p_0) / part.a + 1)
      (1 / part.c) * part.T_0 = T := by
  have hT0ne : part.T_0 ≠ 0 := ne_of_gt hT0
  have hy : 0 ≤ T / part.T_0 := div_nonneg hT (le_of_lt hT0)
  have hbase : (part.p_0 + part.a * (L.pow (T / part.T_0) part.c - 1) - part.p_0) / part.a + 1
      = (T / part.T_0) ^ part.c := by
    rw [hpow _ _ hy]; field_simp
  rw [hbase, hpow _ _ (Real.rpow_nonneg hy _), rpow_rpow_inv _ _ hy hc]
  field_simp

/-- Over the reals, on a segment with `a > 0`, `c > 0`, `0 ≤ T_min ≤ T_0`,
`T_0 > 0`: a pressure whose inversion has a base that is not negative and is
accepted lies between the closed form at `T_min` and the closed form at
`T_max`. -/
theorem simon_accept_in_pressure_range (L : Externals ℝ)
    (hpow : ∀ x y : ℝ, 0 ≤ x → L.pow x y = x ^ y)
    (part : MeltingLinePiecewiseSimonSegment ℝ) (p : ℝ)
    (ha : 0 < part.a) (hc : 0 < part.c) (hT0 : 0 < part.T_0)
    (hTmin0 : 0 ≤ part.T_min) (hTmin : part.T_min ≤ part.T_0)
    (hx : 0 ≤ (p - part.p_0) / part.a + 1)
    (hacc : part.T_0 ≤ L.pow ((p - part.p_0) / part.a + 1) (1 / part.c) * part.T_0
      ∧ L.pow ((p - part.p_0) / part.a + 1) (1 / part.c) * part.T_0 ≤ part.T_max) :
    part.p_0 + part.a * (L.pow (part.T_min / part.T_0) part.c - 1) ≤ p
    ∧ p ≤ part.p_0 + part.a * (L.pow (part.T_max / part.T_0) part.c - 1) := by
  rw [hpow _ _ hx] at hacc
  have hy0 : 0 ≤ ((p - part.p_0) / part.a + 1) ^ (1 / part.c) := Real.rpow_nonneg hx _
  have hyc : (((p - part.p_0) / part.a + 1) ^ (1 / part.c)) ^ part.c
      = (p - part.p_0) / part.a + 1 := rpow_inv_rpow _ _ hx (ne_of_gt hc)
  have hy1 : 1 ≤ ((p - part.p_0) / part.a + 1) ^ (1 / part.c) := by
    by_contra hlt
    push_neg at hlt
    have := mul_lt_mul_of_pos_right hlt hT0
    linarith [hacc.1]
  have hlo : part.T_min / part.T_0 ≤ ((p - part.p_0) / part.a + 1) ^ (1 / part.c) :=
    le_trans ((div_le_one hT0).2 hTmin) hy1
  have hhi : ((p - part.p_0) / part.a + 1) ^ (1 / part.c) ≤ part.T_max / part.T_0 :=
    (le_div_iff₀ hT0).2 hacc.2
  have hlo0 : 0 ≤ part.T_min / part.T_0 := div_nonneg hTmin0 (le_of_lt hT0)
  have hhi0 : 0 ≤ part.T_max / part.T_0 := le_trans hy0 hhi
  have h1 := Real.rpow_le_rpow hlo0 hlo (le_of_lt hc)
  have h2 := Real.rpow_le_rpow hy0 hhi (le_of_lt hc)
  rw [hyc] at h1 h2
  rw [hpow _ _ hlo0, hpow _ _ hhi0]
  have hp : p = part.p_0 + part.a * ((p - part.p_0) / part.a + 1 - 1) := by
    field_simp
  constructor
  · have := mul_le_mul_of_nonneg_left (sub_le_sub_right h1 1) (le_of_lt ha)
    linarith
  · have := mul_le_mul_of_nonneg_left (sub_le_sub_right h2 1) (le_of_lt ha)
    linarith

/-- Over the reals the sum from `0` in the order of the indices, as
`std::accumulate` takes it, is the sum of the list. -/
theorem accumulate_eq_sum (s : List ℝ) : accumulate s 0 = s.sum := by
  simp [accumulate, List.sum_eq_foldl]

/-- At `THETA = 0`, with a `pow` that gives `0^y = 0` for `y > 0`, every term
`n_i * pow(0, t_i)` with `t_i > 0` is zero. -/
theorem terms_zero_at_zero (L : Externals ℝ) (hpow0 : ∀ y : ℝ, 0 < y → L.pow 0 y = 0) :
    ∀ (n t : List ℝ), (∀ t_i ∈ t, 0 < t_i) →
      ∀ x ∈ List.zipWith (fun n_i t_i => n_i * L.pow 0 t_i) n t, x = 0
  | [], _, _, x, hx => by simp at hx
  | _ :: _, [], _, x, hx => by simp at hx
  | n_i :: n, t_i :: t, hpos, x, hx => by
    simp only [List.zipWith_cons_cons, List.mem_cons] at hx
    rcases hx with rfl | hx
    · rw [hpow0 t_i (hpos t_i (List.mem_cons_self _ _)), mul_zero]
    · exact terms_zero_at_zero L hpow0 n t (fun y hy => hpos y (List.mem_cons_of_mem _ hy)) x hx

/-- Over the reals the sum `std::accumulate` takes of a list of zeros is zero. -/
theorem accumulate_zeros (s : List ℝ) (h : ∀ x ∈ s, x = 0) : accumulate s 0 = 0 := by
  rw [accumulate_eq_sum]
  exact List.sum_eq_zero h

/-- The solver `endpointBrent` returns only points whose residual is within its
tolerance. -/
theorem endpointBrent_meets (f : ℝ → Except Failure ℝ) (a b macheps t : ℝ) (maxiter : Nat)
    (root : ℝ) (h : endpointBrent f a b macheps t maxiter = .ok root) :
    ∃ r, f root = .ok r ∧ |r| ≤ t := by
  unfold endpointBrent at h
  cases hf : f b with
  | error e => rw [hf] at h; cases h
  | ok r =>
    rw [hf] at h
    simp only at h
    by_cases hr : -t ≤ r ∧ r ≤ t
    · rw [if_pos hr] at h
      cases h
      exact ⟨r, hf, abs_le.2 hr⟩
    · rw [if_neg hr] at h
      cases h

/-- The ancillary `1 + (1 - T/4)^2` on `[1, 6]` has the value `5/4` at `T = 2`. -/
theorem sample_evaluate_two :
    (SaturationAncillaryFunction.evaluate
        { sampleExternals (fun x y : ℝ => x ^ y) Real.exp with Brent := endpointBrent }
        { sampleAncillary .TYPE_NOT_EXPONENTIAL [1] [2] false 1 4 with Tmin := 1, Tmax := 6 }
        2).map Prod.fst = .ok (5 / 4) := by
  have h2 : (1 - 2 / 4 : ℝ) ^ (2 : ℝ) = 1 / 4 := by rw [Real.rpow_two]; norm_num
  rw [evaluate_nonrational _ _ (by simp [sampleAncillary]) (by simp [sampleAncillary])
    rfl rfl rfl]
  simp only [sampleAncillary, sampleExternals, accumulate, Except.map, if_true,
    List.zipWith_cons_cons, List.zipWith_nil_right, List.foldl_cons, List.foldl_nil, h2]
  norm_num

/-- The residual of the ancillary `1 + (1 - T/4)^2` on `[1, 6]` at `T = 6`,
against a value `v`, is `5/4 - v`. -/
theorem sample_residual_six (v : ℝ) :
    (SaturationAncillaryFunction.evaluate
        { sampleExternals (fun x y : ℝ => x ^ y) Real.exp with
          Brent := endpointBrent, Secant := startSecant }
        { sampleAncillary .TYPE_NOT_EXPONENTIAL [1] [2] false 1 4 with Tmin := 1, Tmax := 6 }
        6).map (fun r => r.1 - v) = .ok (5 / 4 - v) := by
  have h6 : (1 - 6 / 4 : ℝ) ^ (2 : ℝ) = 1 / 4 := by rw [Real.rpow_two]; norm_num
  rw [evaluate_nonrational _ _ (by simp [sampleAncillary]) (by simp [sampleAncillary])
    rfl rfl rfl]
  simp only [sampleAncillary, sampleExternals, accumulate, Except.map, if_true,
    List.zipWith_cons_cons, List.zipWith_nil_right, List.foldl_cons, List.foldl_nil, h6]
  norm_num

/-- On the ancillary `1 + (1 - T/4)^2` on `[1, 6]`, with `endpointBrent`,
`invert(5/4)` returns the upper end `6`, where the value is `5/4` as well. -/
theorem sample_invert :
    SaturationAncillaryFunction.invert
        { sampleExternals (fun x y : ℝ => x ^ y) Real.exp with Brent := endpointBrent }
        { sampleAncillary .TYPE_NOT_EXPONENTIAL [1] [2] false 1 4 with Tmin := 1, Tmax := 6 }
        (5 / 4) = .ok 6 := by
  have h6 : (1 - 6 / 4 : ℝ) ^ (2 : ℝ) = 1 / 4 := by rw [Real.rpow_two]; norm_num
  have hres : SaturationAncillaryFunction.invert.solver_resid
      { sampleExternals (fun x y : ℝ => x ^ y) Real.exp with Brent := endpointBrent }
      { sampleAncillary .TYPE_NOT_EXPONENTIAL [1] [2] false 1 4 with
        Tmin := 1, Tmax := 6 } (5 / 4) 6 = .ok 0 := by
    unfold SaturationAncillaryFunction.invert.solver_resid
    rw [evaluate_nonrational _ _ (by simp [sampleAncillary]) (by simp [sampleAncillary])
      rfl rfl rfl]
    simp only [sampleAncillary, sampleExternals, accumulate, if_true,
      List.zipWith_cons_cons, List.zipWith_nil_right, List.foldl_cons, List.foldl_nil, h6]
    norm_num
  simp only [SaturationAncillaryFunction.invert, endpointBrent, hres]
  norm_num

end RealLemmas

section Claims

variable {α : Type} [Add α] [Sub α] [Mul α] [Div α] [Zero α] [One α] [LE α]
  [∀ x y : α, Decidable (x ≤ y)] [OfScientific α]

/-- C1: on a Simon-type melting line, when segment `i` is the segment of least
index whose closed range `[T_min, T_max]` holds `T` (the range being the one
`is_in_closed_range` tests: `T` between the two bounds, in either order), the
query `evaluate(iP, iT, T)` returns `p_0 + a*((T/T_0)^c - 1)` with the
parameters of segment `i`.  A boundary temperature that two segments share is
the case in which the later one also holds `T`: the earlier one is used. -/
theorem C1_simon_pressure_from_first_segment (L : Externals α) (m : MeltingLineVariables α)
    (hm : m.type = .MELTING_LINE_SIMON_TYPE) (T : α) (i : Nat) (hi : i < m.simon.parts.length)
    (hin : (m.simon.parts[i].T_min ≤ T ∧ T ≤ m.simon.parts[i].T_max)
        ∨ (m.simon.parts[i].T_max ≤ T ∧ T ≤ m.simon.parts[i].T_min))
    (hleast : ∀ j (hj : j < m.simon.parts.length), j < i →
      ¬ ((m.simon.parts[j].T_min ≤ T ∧ T ≤ m.simon.parts[j].T_max)
          ∨ (m.simon.parts[j].T_max ≤ T ∧ T ≤ m.simon.parts[j].T_min))) :
    MeltingLineVariables.evaluate L m L.iP L.iT T
      = .ok (m.simon.parts[i].p_0
          + m.simon.parts[i].a * (L.pow (T / m.simon.parts[i].T_0) m.simon.parts[i].c - 1)) := by
  have h := simon_p_first L T m.simon.parts i hi hin hleast
  simpa [MeltingLineVariables.evaluate, hm] using h

/-- C1, at the boundary `T = 2` shared by the segments `[1, 2]` and `[2, 3]`:
the pressure is that of the first segment, `0 + 1*((2/1)^1 - 1)`; and on the
segments `T_min = 3`, `T_max = 1` and `[1, 3]` at `T = 2`: the first segment
holds `2` between its bounds and answers. -/
theorem C1_simon_pressure_from_first_segment_witness :
    MeltingLineVariables.evaluate (sampleExternals (fun x y : ℝ => x ^ y) Real.exp)
        (sampleSimon [sampleSegment 1 2 1 0 1 1, sampleSegment 2 3 2 1 1 1]) 1 0 2
      = .ok (0 + 1 * (((2 : ℝ) / 1) ^ (1 : ℝ) - 1))
    ∧ MeltingLineVariables.evaluate (sampleExternals (fun x y : ℝ => x ^ y) Real.exp)
        (sampleSimon [sampleSegment 3 1 1 0 1 1, sampleSegment 1 3 2 1 1 1]) 1 0 2
      = .ok (0 + 1 * (((2 : ℝ) / 1) ^ (1 : ℝ) - 1)) :=
  ⟨C1_simon_pressure_from_first_segment (sampleExternals (fun x y : ℝ => x ^ y) Real.exp)
      (sampleSimon [sampleSegment 1 2 1 0 1 1, sampleSegment 2 3 2 1 1 1]) rfl 2 0
      (by simp [sampleSimon])
      (by simp [sampleSimon, sampleSegment])
      (by intro j _ hj; omega),
   C1_simon_pressure_from_first_segment (sampleExternals (fun x y : ℝ => x ^ y) Real.exp)
      (sampleSimon [sampleSegment 3 1 1 0 1 1, sampleSegment 1 3 2 1 1 1]) rfl 2 0
      (by simp [sampleSimon])
      (by simp [sampleSimon, sampleSegment]; norm_num)
      (by intro j _ hj; omega)⟩

/-- C2: for the forms Simon, PolynomialInReducedTemp and PolynomialInTheta,
`evaluate(iP, iT, T)` fails with the lookup error of the form exactly when no
segment of the active collection has a closed range `[T_min, T_max]` holding
`T` (`T` between the two bounds, in either order, as `is_in_closed_range`
tests), and a pressure it returns comes with a segment whose range holds `T`. -/
theorem C2_pressure_lookup_error_iff (L : Externals α) (m : MeltingLineVariables α) (T : α) :
    (m.type = .MELTING_LINE_SIMON_TYPE →
      (MeltingLineVariables.evaluate L m L.iP L.iT T
          = .error (.ValueError "unable to calculate melting line (p,T) for Simon curve")
        ↔ ∀ part ∈ m.simon.parts, ¬ ((part.T_min ≤ T ∧ T ≤ part.T_max)
            ∨ (part.T_max ≤ T ∧ T ≤ part.T_min))) ∧
      (∀ p, MeltingLineVariables.evaluate L m L.iP L.iT T = .ok p →
        ∃ part ∈ m.simon.parts, (part.T_min ≤ T ∧ T ≤ part.T_max)
            ∨ (part.T_max ≤ T ∧ T ≤ part.T_min))) ∧
    (m.type = .MELTING_LINE_POLYNOMIAL_IN_TR_TYPE →
      (MeltingLineVariables.evaluate L m L.iP L.iT T
          = .error (.ValueError
              "unable to calculate melting line (p,T) for polynomial_in_Tr curve")
        ↔ ∀ part ∈ m.polynomial_in_Tr.parts, ¬ ((part.T_min ≤ T ∧ T ≤ part.T_max)
            ∨ (part.T_max ≤ T ∧ T ≤ part.T_min))) ∧
      (∀ p, MeltingLineVariables.evaluate L m L.iP L.iT T = .ok p →
        ∃ part ∈ m.polynomial_in_Tr.parts, (part.T_min ≤ T ∧ T ≤ part.T_max)
            ∨ (part.T_max ≤ T ∧ T ≤ part.T_min))) ∧
    (m.type = .MELTING_LINE_POLYNOMIAL_IN_THETA_TYPE →
      (MeltingLineVariables.evaluate L m L.iP L.iT T
          = .error (.ValueError
              "unable to calculate melting line (p,T) for polynomial_in_Theta curve")
        ↔ ∀ part ∈ m.polynomial_in_Theta.parts, ¬ ((part.T_min ≤ T ∧ T ≤ part.T_max)
            ∨ (part.T_max ≤ T ∧ T ≤ part.T_min))) ∧
      (∀ p, MeltingLineVariables.evaluate L m L.iP L.iT T = .ok p →
        ∃ part ∈ m.polynomial_in_Theta.parts, (part.T_min ≤ T ∧ T ≤ part.T_max)
            ∨ (part.T_max ≤ T ∧ T ≤ part.T_min))) := by
  refine ⟨fun hm => ?_, fun hm => ?_, fun hm => ?_⟩
  · simpa [MeltingLineVariables.evaluate, hm] using simon_p_outcome L T m.simon.parts
  · simpa [MeltingLineVariables.evaluate, hm] using tr_p_outcome L T m.polynomial_in_Tr.parts
  · simpa [MeltingLineVariables.evaluate, hm] using
      theta_p_outcome L T m.polynomial_in_Theta.parts

/-- C2, on a Simon line with the one segment `[1, 2]`: the query at `T = 3`
ends in the lookup error, no segment holding `3`. -/
theorem C2_pressure_lookup_error_iff_witness :
    MeltingLineVariables.evaluate (sampleExternals (fun x y : ℝ => x ^ y) Real.exp)
      (sampleSimon [sampleSegment 1 2 1 0 1 1]) 1 0 3
      = .error (.ValueError "unable to calculate melting line (p,T) for Simon curve") :=
  (((C2_pressure_lookup_error_iff (sampleExternals (fun x y : ℝ => x ^ y) Real.exp)
    (sampleSimon [sampleSegment 1 2 1 0 1 1]) 3).1 rfl).1).2
    (by simp [sampleSimon, sampleSegment]; norm_num)

/-- C3: on a Simon-type melting line `evaluate(iT, iP, p)` takes for each
segment `T_i = ((p - p_0)/a + 1)^(1/c) * T_0` (the product in the operand order
of the code) and returns `T_i` for the segment of least index with
`T_0 ≤ T_i ≤ T_max`, the lower bound being `T_0` and not `T_min`; it fails
with the lookup error exactly when no segment satisfies this. -/
theorem C3_simon_temperature_from_pressure (L : Externals α) (m : MeltingLineVariables α)
    (hm : m.type = .MELTING_LINE_SIMON_TYPE) (p : α) :
    (∀ (i : Nat) (hi : i < m.simon.parts.length),
      (m.simon.parts[i].T_0
          ≤ L.pow ((p - m.simon.parts[i].p_0) / m.simon.parts[i].a + 1) (1 / m.simon.parts[i].c)
              * m.simon.parts[i].T_0
        ∧ L.pow ((p - m.simon.parts[i].p_0) / m.simon.parts[i].a + 1) (1 / m.simon.parts[i].c)
              * m.simon.parts[i].T_0
            ≤ m.simon.parts[i].T_max) →
      (∀ j (hj : j < m.simon.parts.length), j < i →
        ¬ (m.simon.parts[j].T_0
            ≤ L.pow ((p - m.simon.parts[j].p_0) / m.simon.parts[j].a + 1)
                (1 / m.simon.parts[j].c) * m.simon.parts[j].T_0
          ∧ L.pow ((p - m.simon.parts[j].p_0) / m.simon.parts[j].a + 1)
                (1 / m.simon.parts[j].c) * m.simon.parts[j].T_0
              ≤ m.simon.parts[j].T_max)) →
      MeltingLineVariables.evaluate L m L.iT L.iP p
        = .ok (L.pow ((p - m.simon.parts[i].p_0) / m.simon.parts[i].a + 1)
            (1 / m.simon.parts[i].c) * m.simon.parts[i].T_0)) ∧
    (MeltingLineVariables.evaluate L m L.iT L.iP p
        = .error (.ValueError "unable to calculate melting line p(T) for Simon curve")
      ↔ ∀ part ∈ m.simon.parts,
          ¬ (part.T_0 ≤ L.pow ((p - part.p_0) / part.a + 1) (1 / part.c) * part.T_0
            ∧ L.pow ((p - part.p_0) / part.a + 1) (1 / part.c) * part.T_0 ≤ part.T_max)) := by
  rw [evaluate_simon_else L m hm L.iT L.iP (keys_T_from_p L) p]
  exact ⟨fun i hi hin hleast => simon_T_first L p m.simon.parts i hi hin hleast,
    (simon_T_outcome L p m.simon.parts).1⟩

/-- C3, on the segment `T_0 = 1`, `T_min = 2`, `T_max = 3`, `p_0 = 0`, `a = 1`,
`c = 1` at `p = 1/2`: the inverted temperature `3/2` is accepted, being in
`[T_0, T_max]`, though it is below `T_min`. -/
theorem C3_simon_temperature_from_pressure_witness :
    MeltingLineVariables.evaluate (sampleExternals (fun x y : ℝ => x ^ y) Real.exp)
      (sampleSimon [sampleSegment 2 3 1 0 1 1]) 0 1 (1 / 2)
      = .ok (((1 / 2 - 0) / 1 + 1 : ℝ) ^ (1 / 1 : ℝ) * 1) :=
  (C3_simon_temperature_from_pressure (sampleExternals (fun x y : ℝ => x ^ y) Real.exp)
    (sampleSimon [sampleSegment 2 3 1 0 1 1]) rfl (1 / 2)).1 0
    (by simp [sampleSimon])
    (by simp [sampleSimon, sampleSegment, sampleExternals]; norm_num)
    (by intro j _ hj; omega)

/-- C4, as stated, fails: on the segment `T_0 = 1`, `T_max = 100`, `p_0 = 0`,
`a = 1`, `c = 1/2` the query at `p = -3` has the base `-2`, `(-2)^2 = 4` is
accepted and returned, and the closed form at `T = 4` is `1`, not `-3`. -/
theorem C4_counterexample :
    MeltingLineVariables.evaluate (sampleExternals (fun x y : ℝ => x ^ y) Real.exp)
        (sampleSimon [sampleSegment 1 100 1 0 1 (1 / 2)]) 0 1 (-3) = .ok 4
    ∧ (sampleSegment (1 : ℝ) 100 1 0 1 (1 / 2)).a ≠ 0
    ∧ (sampleSegment (1 : ℝ) 100 1 0 1 (1 / 2)).c ≠ 0
    ∧ 0 < (sampleSegment (1 : ℝ) 100 1 0 1 (1 / 2)).T_0
    ∧ (sampleSegment (1 : ℝ) 100 1 0 1 (1 / 2)).p_0
        + (sampleSegment (1 : ℝ) 100 1 0 1 (1 / 2)).a
          * ((sampleExternals (fun x y : ℝ => x ^ y) Real.exp).pow
              (4 / (sampleSegment (1 : ℝ) 100 1 0 1 (1 / 2)).T_0)
              (sampleSegment (1 : ℝ) 100 1 0 1 (1 / 2)).c - 1) ≠ -3 := by
  have h1 : ((-3 - 0) / 1 + 1 : ℝ) ^ (1 / (1 / 2) : ℝ) = 4 := by
    rw [show (1 / (1 / 2) : ℝ) = 2 by norm_num, Real.rpow_two]; norm_num
  have h2 : (4 / 1 : ℝ) ^ (1 / 2 : ℝ) = 2 := by
    rw [show (4 / 1 : ℝ) = 2 ^ (2 : ℝ) by norm_num, ← Real.rpow_mul (by norm_num)]
    norm_num
  refine ⟨?_, ?_, ?_, ?_, ?_⟩
  · rw [evaluate_simon_else _ _ rfl _ _ (by simp [sampleExternals])]
    simp only [sampleSimon, sampleSegment, sampleExternals,
      MeltingLineVariables.evaluate.simon_T, h1]
    norm_num
  · simp [sampleSegment]
  · simp [sampleSegment]
  · simp [sampleSegment]
  · simp only [sampleSegment, sampleExternals, h2]
    norm_num

/-- C4, amended: on a Simon-type melting line over the reals, with a `pow` that
is the real power on bases that are not negative, a temperature `T` returned by
`evaluate(iT, iP, p)` is the inverted temperature of the accepting segment (the
segment of least index with `T_0 ≤ T_i ≤ T_max`), and when that segment has
`a ≠ 0`, `c ≠ 0`, `T_0 > 0` and the base `(p - p_0)/a + 1` is not negative, its
closed form `p_0 + a*((T/T_0)^c - 1)` equals `p`. -/
theorem C4_simon_temperature_solves_pressure (L : Externals ℝ)
    (hpow : ∀ x y : ℝ, 0 ≤ x → L.pow x y = x ^ y)
    (m : MeltingLineVariables ℝ) (hm : m.type = .MELTING_LINE_SIMON_TYPE) (p T : ℝ)
    (hT : MeltingLineVariables.evaluate L m L.iT L.iP p = .ok T) :
    ∃ (i : Nat) (hi : i < m.simon.parts.length),
      T = L.pow ((p - m.simon.parts[i].p_0) / m.simon.parts[i].a + 1) (1 / m.simon.parts[i].c)
            * m.simon.parts[i].T_0 ∧
      (m.simon.parts[i].T_0 ≤ T ∧ T ≤ m.simon.parts[i].T_max) ∧
      (∀ j (hj : j < m.simon.parts.length), j < i →
        ¬ (m.simon.parts[j].T_0
            ≤ L.pow ((p - m.simon.parts[j].p_0) / m.simon.parts[j].a + 1)
                (1 / m.simon.parts[j].c) * m.simon.parts[j].T_0
          ∧ L.pow ((p - m.simon.parts[j].p_0) / m.simon.parts[j].a + 1)
                (1 / m.simon.parts[j].c) * m.simon.parts[j].T_0
              ≤ m.simon.parts[j].T_max)) ∧
      (m.simon.parts[i].a ≠ 0 → m.simon.parts[i].c ≠ 0 → 0 < m.simon.parts[i].T_0 →
        0 ≤ (p - m.simon.parts[i].p_0) / m.simon.parts[i].a + 1 →
        m.simon.parts[i].p_0
          + m.simon.parts[i].a * (L.pow (T / m.simon.parts[i].T_0) m.simon.parts[i].c - 1)
          = p) := by
  rw [evaluate_simon_else L m hm L.iT L.iP (keys_T_from_p L) p] at hT
  obtain ⟨i, hi, hTi, hin, hleast⟩ := simon_T_ok_index L p T m.simon.parts hT
  refine ⟨i, hi, hTi, hin, hleast, fun ha hc hT0 hx => ?_⟩
  rw [hTi]
  exact simon_closed_of_inverse L hpow _ p ha hc hT0 hx

/-- C4, amended, on the segment `T_0 = 1`, `T_max = 3`, `p_0 = 0`, `a = 1`,
`c = 1` at `p = 1`: the query returns `2`, and the closed form at `2` is `1`. -/
theorem C4_simon_temperature_solves_pressure_witness :
    MeltingLineVariables.evaluate (sampleExternals (fun x y : ℝ => x ^ y) Real.exp)
        (sampleSimon [sampleSegment 1 3 1 0 1 1]) 0 1 1 = .ok 2
    ∧ (0 : ℝ) + 1 * ((2 / 1 : ℝ) ^ (1 : ℝ) - 1) = 1 := by
  have hT : MeltingLineVariables.evaluate (sampleExternals (fun x y : ℝ => x ^ y) Real.exp)
      (sampleSimon [sampleSegment 1 3 1 0 1 1]) 0 1 1 = .ok 2 := by
    rw [evaluate_simon_else _ _ rfl _ _ (by simp [sampleExternals])]
    simp only [sampleSimon, sampleSegment, sampleExternals,
      MeltingLineVariables.evaluate.simon_T]
    norm_num
  obtain ⟨i, hi, -, -, -, h⟩ := C4_simon_temperature_solves_pressure
    (sampleExternals (fun x y : ℝ => x ^ y) Real.exp) (fun _ _ _ => rfl)
    (sampleSimon [sampleSegment 1 3 1 0 1 1]) rfl 1 2 hT
  have hi0 : i = 0 := by
    simp [sampleSimon] at hi
    exact hi
  subst hi0
  refine ⟨hT, ?_⟩
  have h2 := h (by simp [sampleSimon, sampleSegment]) (by simp [sampleSimon, sampleSegment])
    (by simp [sampleSimon, sampleSegment]) (by simp [sampleSimon, sampleSegment])
  simpa [sampleSimon, sampleSegment, sampleExternals] using h2

/-- C5, as stated, fails: on the segment `T_0 = 1`, `T_min = 2`, `T_max = 3`
(`p_0 = 0`, `a = 1`, `c = 1`) the temperature `3/2` is in `[T_0, T_max]`, and
the temperature-to-pressure query at `3/2` ends in the lookup error, so the
round trip returns nothing. -/
theorem C5_counterexample :
    ((sampleSegment (2 : ℝ) 3 1 0 1 1).T_0 ≤ 3 / 2
      ∧ (3 / 2 : ℝ) ≤ (sampleSegment (2 : ℝ) 3 1 0 1 1).T_max)
    ∧ MeltingLineVariables.evaluate (sampleExternals (fun x y : ℝ => x ^ y) Real.exp)
        (sampleSimon [sampleSegment 2 3 1 0 1 1]) 1 0 (3 / 2)
        = .error (.ValueError "unable to calculate melting line (p,T) for Simon curve")
    ∧ ¬ ∃ p : ℝ,
        MeltingLineVariables.evaluate (sampleExternals (fun x y : ℝ => x ^ y) Real.exp)
          (sampleSimon [sampleSegment 2 3 1 0 1 1]) 1 0 (3 / 2) = .ok p
        ∧ MeltingLineVariables.evaluate (sampleExternals (fun x y : ℝ => x ^ y) Real.exp)
          (sampleSimon [sampleSegment 2 3 1 0 1 1]) 0 1 p = .ok (3 / 2) := by
  have h : MeltingLineVariables.evaluate (sampleExternals (fun x y : ℝ => x ^ y) Real.exp)
      (sampleSimon [sampleSegment 2 3 1 0 1 1]) 1 0 (3 / 2)
      = .error (.ValueError "unable to calculate melting line (p,T) for Simon curve") := by
    have h0 := evaluate_simon_p (sampleExternals (fun x y : ℝ => x ^ y) Real.exp)
      (sampleSimon [sampleSegment 2 3 1 0 1 1]) rfl (3 / 2)
    simp only [sampleExternals] at h0 ⊢
    rw [h0]
    simp only [sampleSimon, sampleSegment, MeltingLineVariables.evaluate.simon_p,
      is_in_closed_range]
    norm_num
  refine ⟨?_, h, ?_⟩
  · simp only [sampleSegment]; norm_num
  · rintro ⟨p, hp, -⟩
    rw [h] at hp
    cases hp

/-- C5, amended: on a Simon-type melting line over the reals, with a `pow` that
is the real power on bases that are not negative, let segment `i` have
`a ≠ 0`, `c ≠ 0`, `T_0 > 0`, and let `T` satisfy `T_0 ≤ T ≤ T_max` and also
`T_min ≤ T` for that segment; if no earlier segment holds `T` in its range
(between its two bounds, in either order) and no earlier segment accepts the
inversion of the pressure of segment `i` at `T`, then `evaluate(iP, iT, T)`
returns a pressure `p` and `evaluate(iT, iP, p)` returns `T`. -/
theorem C5_simon_round_trip (L : Externals ℝ)
    (hpow : ∀ x y : ℝ, 0 ≤ x → L.pow x y = x ^ y)
    (m : MeltingLineVariables ℝ) (hm : m.type = .MELTING_LINE_SIMON_TYPE) (T : ℝ)
    (i : Nat) (hi : i < m.simon.parts.length)
    (ha : m.simon.parts[i].a ≠ 0) (hc : m.simon.parts[i].c ≠ 0)
    (hT0 : 0 < m.simon.parts[i].T_0)
    (hT : m.simon.parts[i].T_0 ≤ T ∧ T ≤ m.simon.parts[i].T_max)
    (hTmin : m.simon.parts[i].T_min ≤ T)
    (hfirst : ∀ j (hj : j < m.simon.parts.length), j < i →
      ¬ ((m.simon.parts[j].T_min ≤ T ∧ T ≤ m.simon.parts[j].T_max)
          ∨ (m.simon.parts[j].T_max ≤ T ∧ T ≤ m.simon.parts[j].T_min)))
    (hback : ∀ j (hj : j < m.simon.parts.length), j < i →
      ¬ (m.simon.parts[j].T_0
          ≤ L.pow ((m.simon.parts[i].p_0
                    + m.simon.parts[i].a
                      * (L.pow (T / m.simon.parts[i].T_0) m.simon.parts[i].c - 1)
                    - m.simon.parts[j].p_0) / m.simon.parts[j].a + 1)
              (1 / m.simon.parts[j].c) * m.simon.parts[j].T_0
        ∧ L.pow ((m.simon.parts[i].p_0
                    + m.simon.parts[i].a
                      * (L.pow (T / m.simon.parts[i].T_0) m.simon.parts[i].c - 1)
                    - m.simon.parts[j].p_0) / m.simon.parts[j].a + 1)
              (1 / m.simon.parts[j].c) * m.simon.parts[j].T_0
            ≤ m.simon.parts[j].T_max)) :
    ∃ p : ℝ,
      MeltingLineVariables.evaluate L m L.iP L.iT T = .ok p
      ∧ MeltingLineVariables.evaluate L m L.iT L.iP p = .ok T := by
  have hT0' : 0 ≤ T := le_trans (le_of_lt hT0) hT.1
  have hinv := simon_inverse_of_closed L hpow m.simon.parts[i] T ha hc hT0 hT0'
  refine ⟨m.simon.parts[i].p_0
    + m.simon.parts[i].a * (L.pow (T / m.simon.parts[i].T_0) m.simon.parts[i].c - 1), ?_, ?_⟩
  · rw [evaluate_simon_p L m hm T]
    exact simon_p_first L T m.simon.parts i hi (Or.inl ⟨hTmin, hT.2⟩) hfirst
  · rw [evaluate_simon_else L m hm L.iT L.iP (keys_T_from_p L)]
    have h := simon_T_first L
      (m.simon.parts[i].p_0
        + m.simon.parts[i].a * (L.pow (T / m.simon.parts[i].T_0) m.simon.parts[i].c - 1))
      m.simon.parts i hi (by rw [hinv]; exact hT) hback
    rw [h, hinv]

/-- C5, amended, on the one segment `T_0 = T_min = 1`, `T_max = 3`, `p_0 = 0`,
`a = 1`, `c = 1` at `T = 2`: the round trip returns `2`. -/
theorem C5_simon_round_trip_witness :
    ∃ p : ℝ,
      MeltingLineVariables.evaluate (sampleExternals (fun x y : ℝ => x ^ y) Real.exp)
        (sampleSimon [sampleSegment 1 3 1 0 1 1]) 1 0 2 = .ok p
      ∧ MeltingLineVariables.evaluate (sampleExternals (fun x y : ℝ => x ^ y) Real.exp)
        (sampleSimon [sampleSegment 1 3 1 0 1 1]) 0 1 p = .ok 2 :=
  C5_simon_round_trip (sampleExternals (fun x y : ℝ => x ^ y) Real.exp) (fun _ _ _ => rfl)
    (sampleSimon [sampleSegment 1 3 1 0 1 1]) rfl 2 0
    (by simp [sampleSimon])
    (by simp [sampleSimon, sampleSegment])
    (by simp [sampleSimon, sampleSegment])
    (by simp [sampleSimon, sampleSegment])
    (by simp [sampleSimon, sampleSegment]; norm_num)
    (by simp [sampleSimon, sampleSegment])
    (by intro j _ hj; omega)
    (by intro j _ hj; omega)

/-- C6, as stated, fails: with the keys `iP = 1`, `iT = 0`, the pair `(5, 7)`
is neither `(iP, iT)` nor `(iT, iP)`, and on the Simon segment `T_0 = 1`,
`T_max = 3`, `p_0 = 0`, `a = 1`, `c = 1` the call `evaluate(5, 7, 1)` returns
the temperature `2`: the value is taken as a pressure. -/
theorem C6_counterexample :
    ¬ ((5 : Int) = (sampleExternals (fun x y : ℝ => x ^ y) Real.exp).iP
        ∧ (7 : Int) = (sampleExternals (fun x y : ℝ => x ^ y) Real.exp).iT)
    ∧ ¬ ((5 : Int) = (sampleExternals (fun x y : ℝ => x ^ y) Real.exp).iT
        ∧ (7 : Int) = (sampleExternals (fun x y : ℝ => x ^ y) Real.exp).iP)
    ∧ MeltingLineVariables.evaluate (sampleExternals (fun x y : ℝ => x ^ y) Real.exp)
        (sampleSimon [sampleSegment 1 3 1 0 1 1]) 5 7 1 = .ok 2 := by
  refine ⟨by simp [sampleExternals], by simp [sampleExternals], ?_⟩
  rw [evaluate_simon_else _ _ rfl _ _ (by simp [sampleExternals])]
  simp only [sampleSimon, sampleSegment, sampleExternals,
    MeltingLineVariables.evaluate.simon_T]
  norm_num

/-- C6, amended: for every melting line and every pair `(OF, GIVEN)` other than
`(iP, iT)`, `evaluate(OF, GIVEN, value)` is the temperature-from-pressure
query: its outcome is that of `evaluate(iT, iP, value)`, and on a
PolynomialInTheta line it is the error "Invalid melting line type T(p)" for
every value. -/
theorem C6_other_pairs_are_temperature_queries (L : Externals α) (m : MeltingLineVariables α)
    (OF GIVEN : Int) (hk : ¬ (OF = L.iP ∧ GIVEN = L.iT)) (value : α) :
    MeltingLineVariables.evaluate L m OF GIVEN value
        = MeltingLineVariables.evaluate L m L.iT L.iP value
    ∧ (m.type = .MELTING_LINE_POLYNOMIAL_IN_THETA_TYPE →
        MeltingLineVariables.evaluate L m OF GIVEN value
          = .error (.ValueError "Invalid melting line type T(p) [%d]")) := by
  refine ⟨evaluate_else_eq L m OF GIVEN hk value, fun hm => ?_⟩
  simp [MeltingLineVariables.evaluate, hm, hk]

/-- C6, amended, on a Simon line with the keys `iP = 1`, `iT = 0`: the call
with the pair `(5, 7)` has the outcome of the call with the pair `(iT, iP)`. -/
theorem C6_other_pairs_are_temperature_queries_witness :
    MeltingLineVariables.evaluate (sampleExternals (fun x y : ℝ => x ^ y) Real.exp)
        (sampleSimon [sampleSegment 1 3 1 0 1 1]) 5 7 1
      = MeltingLineVariables.evaluate (sampleExternals (fun x y : ℝ => x ^ y) Real.exp)
        (sampleSimon [sampleSegment 1 3 1 0 1 1]) 0 1 1 :=
  (C6_other_pairs_are_temperature_queries (sampleExternals (fun x y : ℝ => x ^ y) Real.exp)
    (sampleSimon [sampleSegment 1 3 1 0 1 1]) 5 7 (by simp [sampleExternals]) 1).1

/-- C7, as stated, fails: on the Simon segment `T_0 = 1`, `T_min = 2`,
`T_max = 3`, `p_0 = 0`, `a = 1`, `c = 1`, after `set_limits` the pressure
range of the segment is `[1, 2]`; the pressure `1/2` is strictly below it (it
is not between the two bounds in either order), and `evaluate(iT, iP, 1/2)`
returns the temperature `3/2`. -/
theorem C7_counterexample :
    ∃ m' : MeltingLineVariables ℝ,
      MeltingLineVariables.set_limits (sampleExternals (fun x y : ℝ => x ^ y) Real.exp)
        (sampleSimon [sampleSegment 2 3 1 0 1 1]) = .ok m'
      ∧ (∀ part ∈ m'.simon.parts,
          part.p_min = 1 ∧ part.p_max = 2
          ∧ ¬ ((part.p_min ≤ 1 / 2 ∧ 1 / 2 ≤ part.p_max)
              ∨ (part.p_max ≤ 1 / 2 ∧ 1 / 2 ≤ part.p_min)))
      ∧ MeltingLineVariables.evaluate (sampleExternals (fun x y : ℝ => x ^ y) Real.exp)
          m' 0 1 (1 / 2) = .ok (3 / 2) := by
  obtain ⟨m', first, last, hset, ht, hparts, -⟩ :=
    set_limits_simon (sampleExternals (fun x y : ℝ => x ^ y) Real.exp)
      (sampleSimon [sampleSegment 2 3 1 0 1 1]) rfl (by simp [sampleSimon])
  refine ⟨m', hset, ?_, ?_⟩
  · intro part hpart
    rw [hparts] at hpart
    simp only [sampleSimon, List.map_cons, List.map_nil, List.mem_singleton] at hpart
    subst hpart
    simp only [MeltingLineVariables.set_limits.simonPart, sampleSegment, sampleExternals]
    norm_num
  · rw [evaluate_simon_else _ _ ht _ _ (by simp [sampleExternals]), hparts]
    simp only [sampleSimon, sampleSegment, sampleExternals, List.map_cons, List.map_nil,
      MeltingLineVariables.set_limits.simonPart, MeltingLineVariables.evaluate.simon_T]
    norm_num

/-- C7, amended: let `set_limits` have run on a melting line.  On a
PolynomialInReducedTemp line, when `p` lies outside the range of every
segment, that is between `p_min` and `p_max` of no segment in either order,
`evaluate(iT, iP, p)` ends in the lookup error; on a PolynomialInTheta line it
ends in the error "Invalid melting line type T(p)" for every `p`.  On a
Simon-type line, over the reals with a `pow` that is the real power on bases
that are not negative, it ends in the lookup error when `p_min ≤ p ≤ p_max`
holds for no segment and every segment has `a > 0`, `c > 0`, `T_0 > 0`,
`0 ≤ T_min ≤ T_0` and a base `(p - p_0)/a + 1` that is not negative. -/
theorem C7_pressure_outside_ranges_raises (L : Externals ℝ)
    (hpow : ∀ x y : ℝ, 0 ≤ x → L.pow x y = x ^ y)
    (m m' : MeltingLineVariables ℝ)
    (hset : MeltingLineVariables.set_limits L m = .ok m') (p : ℝ) :
    (m.type = .MELTING_LINE_SIMON_TYPE →
      (∀ part ∈ m'.simon.parts,
        0 < part.a ∧ 0 < part.c ∧ 0 < part.T_0 ∧ 0 ≤ part.T_min ∧ part.T_min ≤ part.T_0
          ∧ 0 ≤ (p - part.p_0) / part.a + 1) →
      (∀ part ∈ m'.simon.parts, ¬ (part.p_min ≤ p ∧ p ≤ part.p_max)) →
      MeltingLineVariables.evaluate L m' L.iT L.iP p
        = .error (.ValueError "unable to calculate melting line p(T) for Simon curve")) ∧
    (m.type = .MELTING_LINE_POLYNOMIAL_IN_TR_TYPE →
      (∀ part ∈ m'.polynomial_in_Tr.parts, ¬ ((part.p_min ≤ p ∧ p ≤ part.p_max)
          ∨ (part.p_max ≤ p ∧ p ≤ part.p_min))) →
      MeltingLineVariables.evaluate L m' L.iT L.iP p
        = .error (.ValueError
            "unable to calculate melting line T(p) for polynomial_in_Tr curve")) ∧
    (m.type = .MELTING_LINE_POLYNOMIAL_IN_THETA_TYPE →
      MeltingLineVariables.evaluate L m' L.iT L.iP p
        = .error (.ValueError "Invalid melting line type T(p) [%d]")) := by
  have htype := set_limits_type L m m' hset
  refine ⟨fun hm hcond hout => ?_, fun hm hout => ?_, fun hm => ?_⟩
  · obtain ⟨ht, hparts⟩ := set_limits_simon_ok L m m' hm hset
    rw [evaluate_simon_else L m' ht L.iT L.iP (keys_T_from_p L) p]
    refine (simon_T_outcome L p m'.simon.parts).1.2 (fun part hmem hacc => ?_)
    obtain ⟨ha, hc, hT0, hTmin0, hTmin, hx⟩ := hcond part hmem
    have hrange := simon_accept_in_pressure_range L hpow part p ha hc hT0 hTmin0 hTmin hx hacc
    have hmem' := hmem
    rw [hparts, List.mem_map] at hmem'
    obtain ⟨q, -, hq⟩ := hmem'
    have hf := simonPart_fields L q
    rw [hq] at hf
    obtain ⟨hpmin, hpmax, h0, h1, h2, h3, h4, h5⟩ := hf
    rw [← h0, ← h1, ← h2, ← h3, ← h5] at hpmin
    rw [← h0, ← h1, ← h2, ← h3, ← h4] at hpmax
    apply hout part hmem
    rw [hpmin, hpmax]
    exact hrange
  · rw [← htype] at hm
    have hk := keys_T_from_p L
    simp only [MeltingLineVariables.evaluate, hm, hk, if_false]
    simpa using tr_T_outside L p m'.polynomial_in_Tr.parts hout
  · rw [← htype] at hm
    have hk := keys_T_from_p L
    simp [MeltingLineVariables.evaluate, hm, hk]

/-- C7, amended, on the Simon segment `T_0 = T_min = 1`, `T_max = 3`,
`p_0 = 0`, `a = 1`, `c = 1`, whose pressure range after `set_limits` is
`[0, 2]`: the query at `p = 5` ends in the lookup error. -/
theorem C7_pressure_outside_ranges_raises_witness :
    ∃ m' : MeltingLineVariables ℝ,
      MeltingLineVariables.set_limits (sampleExternals (fun x y : ℝ => x ^ y) Real.exp)
        (sampleSimon [sampleSegment 1 3 1 0 1 1]) = .ok m'
      ∧ MeltingLineVariables.evaluate (sampleExternals (fun x y : ℝ => x ^ y) Real.exp)
          m' 0 1 5
        = .error (.ValueError "unable to calculate melting line p(T) for Simon curve") := by
  obtain ⟨m', first, last, hset, ht, hparts, -⟩ :=
    set_limits_simon (sampleExternals (fun x y : ℝ => x ^ y) Real.exp)
      (sampleSimon [sampleSegment 1 3 1 0 1 1]) rfl (by simp [sampleSimon])
  refine ⟨m', hset, ?_⟩
  refine (C7_pressure_outside_ranges_raises (sampleExternals (fun x y : ℝ => x ^ y) Real.exp)
    (fun _ _ _ => rfl) (sampleSimon [sampleSegment 1 3 1 0 1 1]) m' hset 5).1 rfl ?_ ?_
  · intro part hpart
    rw [hparts] at hpart
    simp only [sampleSimon, List.map_cons, List.map_nil, List.mem_singleton] at hpart
    subst hpart
    simp only [MeltingLineVariables.set_limits.simonPart, sampleSegment]
    norm_num
  · intro part hpart
    rw [hparts] at hpart
    simp only [sampleSimon, List.map_cons, List.map_nil, List.mem_singleton] at hpart
    subst hpart
    simp only [MeltingLineVariables.set_limits.simonPart, sampleSegment, sampleExternals]
    norm_num

end Claims

section ClaimsArithmetic

variable {α : Type} [Add α] [Sub α] [Mul α] [Div α] [Zero α] [One α] [LE α]
  [∀ x y : α, Decidable (x ≤ y)]

/-- C8: on a Simon-type melting line with at least one segment `set_limits`
returns, and afterwards every segment has
`p_min = p_0 + a*((T_min/T_0)^c - 1)` and `p_max = p_0 + a*((T_max/T_0)^c - 1)`
(its fields `T_0`, `a`, `c`, `p_0`, `T_min`, `T_max` being those it had
before), and the curve-level bounds are `Tmin`, `pmin` of the first segment and
`Tmax`, `pmax` of the last segment. -/
theorem C8_simon_set_limits (L : Externals α) (m : MeltingLineVariables α)
    (hm : m.type = .MELTING_LINE_SIMON_TYPE) (hne : m.simon.parts ≠ []) :
    ∃ (m' : MeltingLineVariables α) (first last : MeltingLinePiecewiseSimonSegment α),
      MeltingLineVariables.set_limits L m = .ok m'
      ∧ (∀ part ∈ m'.simon.parts,
          part.p_min = part.p_0 + part.a * (L.pow (part.T_min / part.T_0) part.c - 1)
          ∧ part.p_max = part.p_0 + part.a * (L.pow (part.T_max / part.T_0) part.c - 1))
      ∧ m'.simon.parts.length = m.simon.parts.length
      ∧ (∀ (i : Nat) (hi : i < m.simon.parts.length) (hi' : i < m'.simon.parts.length),
          m'.simon.parts[i].T_0 = m.simon.parts[i].T_0
          ∧ m'.simon.parts[i].a = m.simon.parts[i].a
          ∧ m'.simon.parts[i].c = m.simon.parts[i].c
          ∧ m'.simon.parts[i].p_0 = m.simon.parts[i].p_0
          ∧ m'.simon.parts[i].T_min = m.simon.parts[i].T_min
          ∧ m'.simon.parts[i].T_max = m.simon.parts[i].T_max)
      ∧ m'.simon.parts.head? = some first
      ∧ m'.simon.parts.getLast? = some last
      ∧ m'.Tmin = first.T_min ∧ m'.pmin = first.p_min
      ∧ m'.Tmax = last.T_max ∧ m'.pmax = last.p_max := by
  obtain ⟨m', first, last, hset, -, hparts, hfirst, hlast, h1, h2, h3, h4⟩ :=
    set_limits_simon L m hm hne
  refine ⟨m', first, last, hset, ?_, ?_, ?_, hfirst, hlast, h1, h2, h3, h4⟩
  · intro part hmem
    rw [hparts, List.mem_map] at hmem
    obtain ⟨q, -, hq⟩ := hmem
    subst hq
    exact ⟨rfl, rfl⟩
  · rw [hparts, List.length_map]
  · intro i hi hi'
    have hget : m'.simon.parts[i]
        = MeltingLineVariables.set_limits.simonPart L m.simon.parts[i] := by
      simp [hparts]
    rw [hget]
    exact ⟨rfl, rfl, rfl, rfl, rfl, rfl⟩

/-- C8, on the two segments `[1, 2]` (`T_0 = 1`, `p_0 = 0`, `a = 1`, `c = 1`)
and `[2, 3]` (`T_0 = 2`, `p_0 = 1`, `a = 1`, `c = 1`): `set_limits` returns. -/
theorem C8_simon_set_limits_witness :
    ∃ m' : MeltingLineVariables ℝ,
      MeltingLineVariables.set_limits (sampleExternals (fun x y : ℝ => x ^ y) Real.exp)
        (sampleSimon [sampleSegment 1 2 1 0 1 1, sampleSegment 2 3 2 1 1 1]) = .ok m'
      ∧ m'.simon.parts.length = 2 := by
  obtain ⟨m', _, _, hset, _, hlen, _⟩ :=
    C8_simon_set_limits (sampleExternals (fun x y : ℝ => x ^ y) Real.exp)
      (sampleSimon [sampleSegment 1 2 1 0 1 1, sampleSegment 2 3 2 1 1 1]) rfl
      (by simp [sampleSimon])
  exact ⟨m', hset, by simpa [sampleSimon] using hlen⟩

/-- C9: for a saturation ancillary of NonExponential form whose `n`, `t` (and
scratch `s`) have size `N`, `evaluate(T)` returns, for every `T` and with no
test of `T` against `Tmin`, `Tmax`,
`reducing_value * (1 + sum over i < N of n_i * (1 - T/T_r)^(t_i))`, the sum
being taken from `0` in the order of the indices, as `std::accumulate` does;
the object is left with the terms of the sum in `s`. -/
theorem C9_nonexponential_value (L : Externals α) (anc : SaturationAncillaryFunction α)
    (hform : anc.type = .TYPE_NOT_EXPONENTIAL)
    (hn : anc.n.length = anc.N) (ht : anc.t.length = anc.N) (hs : anc.s.length = anc.N)
    (T : α) :
    SaturationAncillaryFunction.evaluate L anc T
      = .ok (anc.reducing_value
              * (1 + (List.zipWith (fun n_i t_i => n_i * L.pow (1 - T / anc.T_r) t_i)
                        anc.n anc.t).foldl (fun acc x => acc + x) 0),
             { anc with
               s := List.zipWith (fun n_i t_i => n_i * L.pow (1 - T / anc.T_r) t_i)
                      anc.n anc.t }) := by
  have hfill := fill_all L (1 - T / anc.T_r) anc.n anc.t anc.s anc.N hn ht hs
  simp only [SaturationAncillaryFunction.evaluate, hform, hfill, accumulate]
  simp

/-- C9, on the ancillary with `n = [2, 3]`, `t = [1, 2]`, `reducing_value = 5`,
`T_r = 4` at `T = 2` (outside `[Tmin, Tmax] = [0, 0]`): `THETA = 1/2` and the
value is `5 * (1 + (0 + 2 * (1/2)^1 + 3 * (1/2)^2))`. -/
theorem C9_nonexponential_value_witness :
    (SaturationAncillaryFunction.evaluate (sampleExternals (fun x y : ℝ => x ^ y) Real.exp)
        (sampleAncillary .TYPE_NOT_EXPONENTIAL [2, 3] [1, 2] false 5 4) 2).map Prod.fst
      = .ok (5 * (1 + (0 + 2 * (1 - 2 / 4 : ℝ) ^ (1 : ℝ) + 3 * (1 - 2 / 4 : ℝ) ^ (2 : ℝ)))) := by
  rw [C9_nonexponential_value (sampleExternals (fun x y : ℝ => x ^ y) Real.exp)
    (sampleAncillary .TYPE_NOT_EXPONENTIAL [2, 3] [1, 2] false 5 4) rfl rfl rfl rfl 2]
  rfl

/-- C10: for a saturation ancillary of Exponential form whose `n`, `t` (and
scratch `s`) have size `N`, `evaluate(T)` returns, for every `T`,
`reducing_value * exp(tau_r * sum over i < N of n_i * (1 - T/T_r)^(t_i))` with
`tau_r = T_r/T` when `using_tau_r` is set and `tau_r = 1` otherwise, the sum
being taken from `0` in the order of the indices; the object is left with the
terms of the sum in `s`. -/
theorem C10_exponential_value (L : Externals α) (anc : SaturationAncillaryFunction α)
    (hform : anc.type = .TYPE_EXPONENTIAL)
    (hn : anc.n.length = anc.N) (ht : anc.t.length = anc.N) (hs : anc.s.length = anc.N)
    (T : α) :
    SaturationAncillaryFunction.evaluate L anc T
      = .ok (anc.reducing_value
              * L.exp ((if anc.using_tau_r = true then anc.T_r / T else 1)
                  * (List.zipWith (fun n_i t_i => n_i * L.pow (1 - T / anc.T_r) t_i)
                        anc.n anc.t).foldl (fun acc x => acc + x) 0),
             { anc with
               s := List.zipWith (fun n_i t_i => n_i * L.pow (1 - T / anc.T_r) t_i)
                      anc.n anc.t }) := by
  have hfill := fill_all L (1 - T / anc.T_r) anc.n anc.t anc.s anc.N hn ht hs
  simp only [SaturationAncillaryFunction.evaluate, hform, hfill, accumulate]
  simp

/-- C10, on the ancillary with `n = [2, 3]`, `t = [1, 2]`, `reducing_value = 5`,
`T_r = 4`, `using_tau_r` set, at `T = 2`: `tau_r = 4/2` and the value is
`5 * exp((4/2) * (0 + 2 * (1/2)^1 + 3 * (1/2)^2))`. -/
theorem C10_exponential_value_witness :
    (SaturationAncillaryFunction.evaluate (sampleExternals (fun x y : ℝ => x ^ y) Real.exp)
        (sampleAncillary .TYPE_EXPONENTIAL [2, 3] [1, 2] true 5 4) 2).map Prod.fst
      = .ok (5 * Real.exp (4 / 2
          * (0 + 2 * (1 - 2 / 4 : ℝ) ^ (1 : ℝ) + 3 * (1 - 2 / 4 : ℝ) ^ (2 : ℝ)))) := by
  rw [C10_exponential_value (sampleExternals (fun x y : ℝ => x ^ y) Real.exp)
    (sampleAncillary .TYPE_EXPONENTIAL [2, 3] [1, 2] true 5 4) rfl rfl rfl rfl 2]
  rfl

/-- C11, as stated, fails: with the exponent `t = [0]` the term at `THETA = 0`
is `n_0 * 0^0 = n_0`, not zero; the NonExponential ancillary with `n = [1]`,
`t = [0]`, `reducing_value = 5`, `T_r = 4` has `evaluate(T_r) = 5 * (1 + 1) = 10`. -/
theorem C11_counterexample :
    (SaturationAncillaryFunction.evaluate (sampleExternals (fun x y : ℝ => x ^ y) Real.exp)
        (sampleAncillary .TYPE_NOT_EXPONENTIAL [1] [0] false 5 4) 4).map Prod.fst
      = .ok 10
    ∧ (10 : ℝ) ≠ (sampleAncillary (.TYPE_NOT_EXPONENTIAL) [1] [0] false (5 : ℝ) 4).reducing_value
    := by
  constructor
  · rw [evaluate_nonrational _ _ (by simp [sampleAncillary]) (by simp [sampleAncillary])
      rfl rfl rfl]
    simp only [sampleAncillary, sampleExternals, accumulate, Except.map, if_true,
      List.zipWith_cons_cons, List.zipWith_nil_right, List.foldl_cons, List.foldl_nil,
      Real.rpow_zero]
    norm_num
  · simp [sampleAncillary]

/-- C11, amended: over the reals, with a `pow` that gives `0^y = 0` for
`y > 0` and an `exp` with `exp(0) = 1`, for a saturation ancillary of
Exponential or NonExponential form whose `n`, `t`, `s` have size `N`, whose
`T_r` is not zero and whose exponents `t_i` are all positive, `evaluate(T_r)`
equals `reducing_value`, for any coefficients `n` and either setting of
`using_tau_r`. -/
theorem C11_value_at_reducing_temperature (L : Externals ℝ)
    (hpow0 : ∀ y : ℝ, 0 < y → L.pow 0 y = 0) (hexp : L.exp 0 = 1)
    (anc : SaturationAncillaryFunction ℝ)
    (hform : anc.type = .TYPE_EXPONENTIAL ∨ anc.type = .TYPE_NOT_EXPONENTIAL)
    (hn : anc.n.length = anc.N) (ht : anc.t.length = anc.N) (hs : anc.s.length = anc.N)
    (hTr : anc.T_r ≠ 0) (hpos : ∀ t_i ∈ anc.t, 0 < t_i) :
    (SaturationAncillaryFunction.evaluate L anc anc.T_r).map Prod.fst
      = .ok anc.reducing_value := by
  have h1 : anc.type ≠ .TYPE_NOT_SET := by rcases hform with h | h <;> simp [h]
  have h2 : anc.type ≠ .TYPE_RATIONAL_POLYNOMIAL := by rcases hform with h | h <;> simp [h]
  have hsum : accumulate (List.zipWith (fun n_i t_i => n_i * L.pow (1 - anc.T_r / anc.T_r) t_i)
      anc.n anc.t) 0 = 0 := by
    rw [div_self hTr, sub_self]
    exact accumulate_zeros _ (terms_zero_at_zero L hpow0 anc.n anc.t hpos)
  rw [evaluate_nonrational L anc h1 h2 hn ht hs anc.T_r, hsum]
  simp only [Except.map, mul_zero, hexp, add_zero, mul_one, ite_self]

/-- C11, amended, on the Exponential ancillary with `n = [2, 3]`, `t = [1, 2]`,
`reducing_value = 5`, `T_r = 4`, `using_tau_r` set: `evaluate(4) = 5`. -/
theorem C11_value_at_reducing_temperature_witness :
    (SaturationAncillaryFunction.evaluate (sampleExternals (fun x y : ℝ => x ^ y) Real.exp)
        (sampleAncillary .TYPE_EXPONENTIAL [2, 3] [1, 2] true 5 4) 4).map Prod.fst
      = .ok 5 :=
  C11_value_at_reducing_temperature (sampleExternals (fun x y : ℝ => x ^ y) Real.exp)
    (fun y hy => Real.zero_rpow (ne_of_gt hy)) Real.exp_zero
    (sampleAncillary .TYPE_EXPONENTIAL [2, 3] [1, 2] true 5 4) (Or.inl rfl) rfl rfl rfl
    (by simp [sampleAncillary]) (by simp [sampleAncillary])

end ClaimsArithmetic

section ClaimsInvert

variable {α : Type} [Add α] [Sub α] [Mul α] [Div α] [Zero α] [One α] [Neg α] [OfScientific α]

/-- C12: `invert(value)`, with `Brent` and `Secant` functions that return a
root or throw.  The residual is `r(T) = evaluate(T) - value` (failing where
`evaluate` fails).  The bracketed solve is `Brent` on `r` over `[Tmin, Tmax]`
with `DBL_EPSILON`, `1e-12` and the cap `100`; the open solve is `Secant` on
`r` from `Tmax` with step `-0.01`, tolerance `1e-12` and the cap `100`.  If the
bracketed solve returns a root, `invert` returns it; if it throws, whatever
the message, `invert` is exactly the open solve; `invert` fails exactly when
both fail, and its failure is then that of the open solve. -/
theorem C12_invert_fallback (L : Externals α) (anc : SaturationAncillaryFunction α)
    (value : α)
    (hB : L.Brent
        (fun T => (SaturationAncillaryFunction.evaluate L anc T).map (fun r => r.1 - value))
        anc.Tmin anc.Tmax L.DBL_EPSILON 1e-12 100 ≠ .error .undefined) :
    (∀ root, L.Brent
        (fun T => (SaturationAncillaryFunction.evaluate L anc T).map (fun r => r.1 - value))
        anc.Tmin anc.Tmax L.DBL_EPSILON 1e-12 100 = .ok root →
      SaturationAncillaryFunction.invert L anc value = .ok root) ∧
    (∀ e, L.Brent
        (fun T => (SaturationAncillaryFunction.evaluate L anc T).map (fun r => r.1 - value))
        anc.Tmin anc.Tmax L.DBL_EPSILON 1e-12 100 = .error e →
      SaturationAncillaryFunction.invert L anc value
        = L.Secant
            (fun T => (SaturationAncillaryFunction.evaluate L anc T).map (fun r => r.1 - value))
            anc.Tmax (-0.01) 1e-12 100) ∧
    ((∃ e, SaturationAncillaryFunction.invert L anc value = .error e) ↔
      (∃ e1, L.Brent
          (fun T => (SaturationAncillaryFunction.evaluate L anc T).map (fun r => r.1 - value))
          anc.Tmin anc.Tmax L.DBL_EPSILON 1e-12 100 = .error e1) ∧
      (∃ e2, L.Secant
          (fun T => (SaturationAncillaryFunction.evaluate L anc T).map (fun r => r.1 - value))
          anc.Tmax (-0.01) 1e-12 100 = .error e2)) ∧
    (∀ e, SaturationAncillaryFunction.invert L anc value = .error e →
      L.Secant
          (fun T => (SaturationAncillaryFunction.evaluate L anc T).map (fun r => r.1 - value))
          anc.Tmax (-0.01) 1e-12 100 = .error e) := by
  rw [← solver_resid_eq L anc value] at hB ⊢
  unfold SaturationAncillaryFunction.invert
  cases hbr : L.Brent (SaturationAncillaryFunction.invert.solver_resid L anc value)
      anc.Tmin anc.Tmax L.DBL_EPSILON 1e-12 100 with
  | ok root =>
    refine ⟨fun r hr => ?_, fun e he => (by cases he), ?_, fun e he => (by cases he)⟩
    · cases hr; rfl
    · constructor
      · rintro ⟨e, he⟩; cases he
      · rintro ⟨⟨e1, he1⟩, -⟩; cases he1
  | error e0 =>
    cases e0 with
    | undefined => exact absurd hbr hB
    | ValueError msg =>
      refine ⟨fun r hr => (by cases hr), fun e _ => rfl, ?_, fun e he => he⟩
      constructor
      · rintro ⟨e, he⟩
        exact ⟨⟨_, rfl⟩, ⟨e, he⟩⟩
      · rintro ⟨-, ⟨e2, he2⟩⟩
        exact ⟨e2, he2⟩

/-- C12, on the ancillary `1 + (1 - T/4)^2` on `[1, 6]` with solvers that
evaluate the residual they are given (`endpointBrent` at the upper end of the
bracket, `startSecant` at the starting point): for the value `5/4` the
residual at `6` is `0` and `invert` returns the root `6` of the bracketed
solve; for the value `0` the residual at `6` is `5/4`, both solvers throw, and
`invert` fails with the failure of the open solve. -/
theorem C12_invert_fallback_witness :
    SaturationAncillaryFunction.invert
        { sampleExternals (fun x y : ℝ => x ^ y) Real.exp with
          Brent := endpointBrent, Secant := startSecant }
        { sampleAncillary .TYPE_NOT_EXPONENTIAL [1] [2] false 1 4 with Tmin := 1, Tmax := 6 }
        (5 / 4) = .ok 6
    ∧ SaturationAncillaryFunction.invert
        { sampleExternals (fun x y : ℝ => x ^ y) Real.exp with
          Brent := endpointBrent, Secant := startSecant }
        { sampleAncillary .TYPE_NOT_EXPONENTIAL [1] [2] false 1 4 with Tmin := 1, Tmax := 6 }
        0 = .error (.ValueError "startSecant") := by
  have hB1 : endpointBrent
      (fun T => (SaturationAncillaryFunction.evaluate
        { sampleExternals (fun x y : ℝ => x ^ y) Real.exp with
          Brent := endpointBrent, Secant := startSecant }
        { sampleAncillary .TYPE_NOT_EXPONENTIAL [1] [2] false 1 4 with Tmin := 1, Tmax := 6 }
        T).map (fun r => r.1 - 5 / 4)) (1 : ℝ) 6 0 1e-12 100 = .ok 6 := by
    simp only [endpointBrent, sample_residual_six]
    norm_num
  have hB2 : endpointBrent
      (fun T => (SaturationAncillaryFunction.evaluate
        { sampleExternals (fun x y : ℝ => x ^ y) Real.exp with
          Brent := endpointBrent, Secant := startSecant }
        { sampleAncillary .TYPE_NOT_EXPONENTIAL [1] [2] false 1 4 with Tmin := 1, Tmax := 6 }
        T).map (fun r => r.1 - 0)) (1 : ℝ) 6 0 1e-12 100
      = .error (.ValueError "endpointBrent") := by
    simp only [endpointBrent, sample_residual_six]
    norm_num
  have hS2 : startSecant
      (fun T => (SaturationAncillaryFunction.evaluate
        { sampleExternals (fun x y : ℝ => x ^ y) Real.exp with
          Brent := endpointBrent, Secant := startSecant }
        { sampleAncillary .TYPE_NOT_EXPONENTIAL [1] [2] false 1 4 with Tmin := 1, Tmax := 6 }
        T).map (fun r => r.1 - 0)) (6 : ℝ) (-0.01) 1e-12 100
      = .error (.ValueError "startSecant") := by
    simp only [startSecant, sample_residual_six]
    norm_num
  constructor
  · exact (C12_invert_fallback
      { sampleExternals (fun x y : ℝ => x ^ y) Real.exp with
        Brent := endpointBrent, Secant := startSecant }
      { sampleAncillary .TYPE_NOT_EXPONENTIAL [1] [2] false 1 4 with Tmin := 1, Tmax := 6 }
      (5 / 4) (fun h => by have h2 := hB1.symm.trans h; cases h2)).1 6 hB1
  · have h := (C12_invert_fallback
      { sampleExternals (fun x y : ℝ => x ^ y) Real.exp with
        Brent := endpointBrent, Secant := startSecant }
      { sampleAncillary .TYPE_NOT_EXPONENTIAL [1] [2] false 1 4 with Tmin := 1, Tmax := 6 }
      0 (fun h => by have h2 := hB2.symm.trans h; cases h2)).2.1 _ hB2
    rw [h]
    exact hS2

end ClaimsInvert

section ClaimsRoundTrip

/-- C13, as stated, fails.  The constructor builds from `type = "rhoLnoexp"`,
`n = [1]`, `t = [2]`, `Tmin = 1`, `Tmax = 6`, `reducing_value = 1`, `T_r = 4`
the ancillary `1 + (1 - T/4)^2`, which takes the value `5/4` at `T = 2`,
strictly inside `[1, 6]`, and also at `T = 6`.  `endpointBrent` returns only
points whose residual is within its tolerance, and `invert(5/4)` returns `6`,
which is not within `1e-12` of `2`. -/
theorem C13_counterexample :
    (∀ (f : ℝ → Except Failure ℝ) (a b macheps t : ℝ) (maxiter : Nat) (root : ℝ),
        endpointBrent f a b macheps t maxiter = .ok root → ∃ r, f root = .ok r ∧ |r| ≤ t)
    ∧ ∃ anc : SaturationAncillaryFunction ℝ,
        SaturationAncillaryFunction.constructor
            (sampleAncillary .TYPE_NOT_SET [] [] false 0 0)
            (sampleJson "rhoLnoexp" [1] [2] 1 6 1 false 4) = .ok anc
        ∧ anc.Tmin < 2 ∧ 2 < anc.Tmax
        ∧ (SaturationAncillaryFunction.evaluate
              { sampleExternals (fun x y : ℝ => x ^ y) Real.exp with Brent := endpointBrent }
              anc 2).map Prod.fst = .ok (5 / 4)
        ∧ SaturationAncillaryFunction.invert
              { sampleExternals (fun x y : ℝ => x ^ y) Real.exp with Brent := endpointBrent }
              anc (5 / 4) = .ok 6
        ∧ ¬ |(6 : ℝ) - 2| ≤ 1e-12 := by
  refine ⟨endpointBrent_meets, { sampleAncillary .TYPE_NOT_EXPONENTIAL [1] [2] false 1 4 with
      Tmin := 1, Tmax := 6 }, ?_, ?_, ?_, sample_evaluate_two, sample_invert, ?_⟩
  · simp [SaturationAncillaryFunction.constructor, SaturationAncillaryFunction.constructor.read,
      sampleJson, sampleAncillary, bind, Except.bind, pure, Except.pure]
  · norm_num
  · norm_num
  · norm_num

/-- C13, amended: over the reals, given solvers that return only points whose
residual is within their tolerance, a temperature `T'` that `invert(value)`
returns has `evaluate(T')` within `1e-12` of `value`, for every saturation
ancillary of any form; with `value = evaluate(T)` this is the residual
`evaluate(T') - evaluate(T)`, and `T'` need not be `T`. -/
theorem C13_invert_residual_within_tolerance (L : Externals ℝ)
    (hBrent : ∀ (f : ℝ → Except Failure ℝ) (a b macheps t : ℝ) (maxiter : Nat) (root : ℝ),
      L.Brent f a b macheps t maxiter = .ok root → ∃ r, f root = .ok r ∧ |r| ≤ t)
    (hSecant : ∀ (f : ℝ → Except Failure ℝ) (x0 dx tol : ℝ) (maxiter : Nat) (root : ℝ),
      L.Secant f x0 dx tol maxiter = .ok root → ∃ r, f root = .ok r ∧ |r| ≤ tol)
    (anc : SaturationAncillaryFunction ℝ) (value T' : ℝ)
    (hinv : SaturationAncillaryFunction.invert L anc value = .ok T') :
    ∃ v', (SaturationAncillaryFunction.evaluate L anc T').map Prod.fst = .ok v'
      ∧ |v' - value| ≤ 1e-12 := by
  have hres : ∃ r, SaturationAncillaryFunction.invert.solver_resid L anc value T' = .ok r
      ∧ |r| ≤ 1e-12 := by
    unfold SaturationAncillaryFunction.invert at hinv
    cases hbr : L.Brent (SaturationAncillaryFunction.invert.solver_resid L anc value)
        anc.Tmin anc.Tmax L.DBL_EPSILON 1e-12 100 with
    | ok root =>
      rw [hbr] at hinv
      cases hinv
      exact hBrent _ _ _ _ _ _ _ hbr
    | error e0 =>
      rw [hbr] at hinv
      cases e0 with
      | undefined => cases hinv
      | ValueError msg => exact hSecant _ _ _ _ _ _ hinv
  obtain ⟨r, hr, hle⟩ := hres
  unfold SaturationAncillaryFunction.invert.solver_resid at hr
  cases hev : SaturationAncillaryFunction.evaluate L anc T' with
  | error e => rw [hev] at hr; cases hr
  | ok res =>
    obtain ⟨v', anc'⟩ := res
    rw [hev] at hr
    simp only [Except.ok.injEq] at hr
    subst hr
    exact ⟨v', rfl, hle⟩

/-- C13, amended, on the ancillary `1 + (1 - T/4)^2` on `[1, 6]` with
`endpointBrent`: `invert(5/4)` returns `6`, and `evaluate(6)` is within `1e-12`
of `5/4`. -/
theorem C13_invert_residual_within_tolerance_witness :
    ∃ v', (SaturationAncillaryFunction.evaluate
          { sampleExternals (fun x y : ℝ => x ^ y) Real.exp with Brent := endpointBrent }
          { sampleAncillary .TYPE_NOT_EXPONENTIAL [1] [2] false 1 4 with
            Tmin := 1, Tmax := 6 } 6).map Prod.fst = .ok v'
      ∧ |v' - 5 / 4| ≤ 1e-12 :=
  C13_invert_residual_within_tolerance
    { sampleExternals (fun x y : ℝ => x ^ y) Real.exp with Brent := endpointBrent }
    endpointBrent_meets
    (fun _ _ _ _ _ _ h => by simp [sampleExternals] at h)
    { sampleAncillary .TYPE_NOT_EXPONENTIAL [1] [2] false 1 4 with Tmin := 1, Tmax := 6 }
    (5 / 4) 6 sample_invert

end ClaimsRoundTrip

section ClaimsMeltingLine

variable {α : Type} [Add α] [Sub α] [Mul α] [Div α] [Zero α] [One α] [LE α]
  [∀ x y : α, Decidable (x ≤ y)] [OfScientific α]

/-- C14: on a PolynomialInReducedTemp melting line (any such line, so also one
on which `set_limits` has run), when segment `i` is the segment of least index
whose closed pressure range `[p_min, p_max]` holds `p` (`p` between the two
bounds, in either order, as `is_in_closed_range` tests), the outcome of
`evaluate(iT, iP, p)` is the outcome of `Brent` on the residual
`p - segment.evaluate(T)` over `[T_min, T_max]` of that segment with
`DBL_EPSILON`, `1e-12` and the cap `100`: its root when it returns one, its
failure when it fails, with no other solver and no later segment tried; and
when no segment's pressure range holds `p` the outcome is the lookup error. -/
theorem C14_tr_temperature_from_pressure (L : Externals α) (m : MeltingLineVariables α)
    (hm : m.type = .MELTING_LINE_POLYNOMIAL_IN_TR_TYPE) (p : α) :
    (∀ (i : Nat) (hi : i < m.polynomial_in_Tr.parts.length),
      ((m.polynomial_in_Tr.parts[i].p_min ≤ p ∧ p ≤ m.polynomial_in_Tr.parts[i].p_max)
          ∨ (m.polynomial_in_Tr.parts[i].p_max ≤ p ∧ p ≤ m.polynomial_in_Tr.parts[i].p_min)) →
      (∀ j (hj : j < m.polynomial_in_Tr.parts.length), j < i →
        ¬ ((m.polynomial_in_Tr.parts[j].p_min ≤ p ∧ p ≤ m.polynomial_in_Tr.parts[j].p_max)
            ∨ (m.polynomial_in_Tr.parts[j].p_max ≤ p ∧ p ≤ m.polynomial_in_Tr.parts[j].p_min))) →
      MeltingLineVariables.evaluate L m L.iT L.iP p
        = L.Brent (fun T => .ok (p - L.trEvaluate m.polynomial_in_Tr.parts[i] T))
            m.polynomial_in_Tr.parts[i].T_min m.polynomial_in_Tr.parts[i].T_max
            L.DBL_EPSILON 1e-12 100) ∧
    ((∀ part ∈ m.polynomial_in_Tr.parts, ¬ ((part.p_min ≤ p ∧ p ≤ part.p_max)
        ∨ (part.p_max ≤ p ∧ p ≤ part.p_min))) →
      MeltingLineVariables.evaluate L m L.iT L.iP p
        = .error (.ValueError
            "unable to calculate melting line T(p) for polynomial_in_Tr curve")) := by
  rw [evaluate_tr_else L m hm L.iT L.iP (keys_T_from_p L) p]
  exact ⟨fun i hi hin hleast => tr_T_first L p m.polynomial_in_Tr.parts i hi hin hleast,
    fun hout => tr_T_outside L p m.polynomial_in_Tr.parts hout⟩

/-- C14, on a segment whose pressure falls with temperature, `30 - 10 T` on
`[1, 2]`, so that `p_min = 20` is above `p_max = 10`, with `endpointBrent` as
the bracketed solver.  At `p = 10` the segment is selected, the residual
`10 - (30 - 10 T)` is `0` at the upper end of the bracket, and the query
returns the root `2`; at `p = 15` the segment is selected too, the residual at
the upper end is `5`, and the failure of the solver is the outcome. -/
theorem C14_tr_temperature_from_pressure_witness :
    MeltingLineVariables.evaluate
        { sampleExternals (fun x y : ℝ => x ^ y) Real.exp with
          trEvaluate := fun _ T => 30 - 10 * T, Brent := endpointBrent }
        (sampleTr [sampleTrSegment 1 2 20 10]) 0 1 10 = .ok 2
    ∧ MeltingLineVariables.evaluate
        { sampleExternals (fun x y : ℝ => x ^ y) Real.exp with
          trEvaluate := fun _ T => 30 - 10 * T, Brent := endpointBrent }
        (sampleTr [sampleTrSegment 1 2 20 10]) 0 1 15
      = .error (.ValueError "endpointBrent") := by
  constructor
  · refine Eq.trans ((C14_tr_temperature_from_pressure
      { sampleExternals (fun x y : ℝ => x ^ y) Real.exp with
        trEvaluate := fun _ T => 30 - 10 * T, Brent := endpointBrent }
      (sampleTr [sampleTrSegment 1 2 20 10]) rfl 10).1 0
      (by simp [sampleTr])
      (by simp [sampleTr, sampleTrSegment]; norm_num)
      (by intro j _ hj; omega)) ?_
    simp only [endpointBrent, sampleTr, sampleTrSegment, sampleExternals,
      List.getElem_cons_zero]
    norm_num
  · refine Eq.trans ((C14_tr_temperature_from_pressure
      { sampleExternals (fun x y : ℝ => x ^ y) Real.exp with
        trEvaluate := fun _ T => 30 - 10 * T, Brent := endpointBrent }
      (sampleTr [sampleTrSegment 1 2 20 10]) rfl 15).1 0
      (by simp [sampleTr])
      (by simp [sampleTr, sampleTrSegment]; norm_num)
      (by intro j _ hj; omega)) ?_
    simp only [endpointBrent, sampleTr, sampleTrSegment, sampleExternals,
      List.getElem_cons_zero]
    norm_num

/-- C15: on a PolynomialInTheta melting line, whatever its segments,
`evaluate(iT, iP, p)` ends for every `p` in the error
"Invalid melting line type T(p)" and returns no temperature. -/
theorem C15_theta_temperature_from_pressure_fails (L : Externals α)
    (m : MeltingLineVariables α) (hm : m.type = .MELTING_LINE_POLYNOMIAL_IN_THETA_TYPE)
    (p : α) :
    MeltingLineVariables.evaluate L m L.iT L.iP p
      = .error (.ValueError "Invalid melting line type T(p) [%d]") := by
  have hk := keys_T_from_p L
  simp [MeltingLineVariables.evaluate, hm, hk]

/-- C15, on the polynomial-in-theta line with the one segment `[1, 3]`: the
query at `p = 2` ends in the error. -/
theorem C15_theta_temperature_from_pressure_fails_witness :
    MeltingLineVariables.evaluate (sampleExternals (fun x y : ℝ => x ^ y) Real.exp)
      (sampleTheta [sampleThetaSegment 1 3 1 2] 0 0 0 7) 0 1 2
      = .error (.ValueError "Invalid melting line type T(p) [%d]") :=
  C15_theta_temperature_from_pressure_fails (sampleExternals (fun x y : ℝ => x ^ y) Real.exp)
    (sampleTheta [sampleThetaSegment 1 3 1 2] 0 0 0 7) rfl 2

end ClaimsMeltingLine

section ClaimsSetLimits

variable {α : Type} [Add α] [Sub α] [Mul α] [Div α] [Zero α] [One α] [LE α]
  [∀ x y : α, Decidable (x ≤ y)]

/-- C17: on a PolynomialInTheta melting line with at least one segment
`set_limits` returns, `Tmin` and `pmin` are then `T_0` and `p_0` of the first
segment, `Tmax` is `T_max` of the last segment, and `pmax`, the segments and
every other member are as they were before the call. -/
theorem C17_theta_set_limits (L : Externals α) (m : MeltingLineVariables α)
    (hm : m.type = .MELTING_LINE_POLYNOMIAL_IN_THETA_TYPE)
    (hne : m.polynomial_in_Theta.parts ≠ []) :
    ∃ (m' : MeltingLineVariables α) (first last : MeltingLinePiecewisePolynomialInThetaSegment α),
      MeltingLineVariables.set_limits L m = .ok m'
      ∧ m.polynomial_in_Theta.parts.head? = some first
      ∧ m.polynomial_in_Theta.parts.getLast? = some last
      ∧ m'.Tmin = first.T_0 ∧ m'.pmin = first.p_0 ∧ m'.Tmax = last.T_max
      ∧ m'.pmax = m.pmax
      ∧ m'.polynomial_in_Theta = m.polynomial_in_Theta
      ∧ m'.simon = m.simon ∧ m'.polynomial_in_Tr = m.polynomial_in_Tr
      ∧ m'.type = m.type :=
  ⟨_, m.polynomial_in_Theta.parts.head hne, m.polynomial_in_Theta.parts.getLast hne,
    set_limits_theta L m hm hne, List.head?_eq_head hne, List.getLast?_eq_getLast _ hne,
    rfl, rfl, rfl, rfl, rfl, rfl, rfl, rfl⟩

/-- C17, on the two segments `[1, 3]` (`T_0 = 1`, `p_0 = 2`) and `[3, 5]`
(`T_0 = 3`, `p_0 = 4`) with `pmax = 7` before the call: `set_limits` returns
with `Tmin = 1`, `pmin = 2`, `Tmax = 5` and `pmax = 7`. -/
theorem C17_theta_set_limits_witness :
    ∃ m' : MeltingLineVariables ℝ,
      MeltingLineVariables.set_limits (sampleExternals (fun x y : ℝ => x ^ y) Real.exp)
        (sampleTheta [sampleThetaSegment 1 3 1 2, sampleThetaSegment 3 5 3 4] 0 0 0 7) = .ok m'
      ∧ m'.Tmin = 1 ∧ m'.pmin = 2 ∧ m'.Tmax = 5 ∧ m'.pmax = 7 := by
  obtain ⟨m', first, last, hset, hfirst, hlast, h1, h2, h3, h4, -⟩ :=
    C17_theta_set_limits (sampleExternals (fun x y : ℝ => x ^ y) Real.exp)
      (sampleTheta [sampleThetaSegment 1 3 1 2, sampleThetaSegment 3 5 3 4] 0 0 0 7) rfl
      (by simp [sampleTheta])
  simp only [sampleTheta, List.head?_cons, Option.some.injEq] at hfirst
  simp only [sampleTheta, List.getLast?_cons_cons, List.getLast?_singleton,
    Option.some.injEq] at hlast
  subst hfirst hlast
  exact ⟨m', hset, h1, h2, h3, h4⟩

end ClaimsSetLimits

section ClaimsConstructor

variable {α : Type} [Add α] [Sub α] [Mul α] [Div α] [Zero α] [One α] [LE α]
  [∀ x y : α, Decidable (x ≤ y)]

/-- C16: the constructor chooses the form by exact, case-sensitive comparison of
the type string.  With `"rational_polynomial"` and the reads of the rational
form succeeding it returns an ancillary of form RationalPolynomial; with
`"rhoLnoexp"` and the reads of the non-rational forms succeeding, one of form
NonExponential; with any other string and those reads succeeding, one of form
Exponential.  Whatever it returns has the form so chosen, never Unset, and
`evaluate` on it never ends in the error "type not set". -/
theorem C16_constructor_form (raw : SaturationAncillaryFunction α) (json_code : JsonCode α) :
    (∀ (A B : List α) (max_abs_error : α),
      json_code.type = .ok "rational_polynomial" →
      json_code.A = .ok A → json_code.B = .ok B →
      json_code.max_abs_error = .ok max_abs_error →
      ∃ anc, SaturationAncillaryFunction.constructor raw json_code = .ok anc
        ∧ anc.type = .TYPE_RATIONAL_POLYNOMIAL)
    ∧ (∀ (n t : List α) (Tmin Tmax reducing_value : α) (using_tau_r : Bool) (T_r : α),
      json_code.type = .ok "rhoLnoexp" →
      json_code.n = .ok n → json_code.t = .ok t →
      json_code.Tmin = .ok Tmin → json_code.Tmax = .ok Tmax →
      json_code.reducing_value = .ok reducing_value →
      json_code.using_tau_r = .ok using_tau_r → json_code.T_r = .ok T_r →
      ∃ anc, SaturationAncillaryFunction.constructor raw json_code = .ok anc
        ∧ anc.type = .TYPE_NOT_EXPONENTIAL)
    ∧ (∀ (type : String) (n t : List α) (Tmin Tmax reducing_value : α) (using_tau_r : Bool)
        (T_r : α),
      json_code.type = .ok type → type ≠ "rational_polynomial" → type ≠ "rhoLnoexp" →
      json_code.n = .ok n → json_code.t = .ok t →
      json_code.Tmin = .ok Tmin → json_code.Tmax = .ok Tmax →
      json_code.reducing_value = .ok reducing_value →
      json_code.using_tau_r = .ok using_tau_r → json_code.T_r = .ok T_r →
      ∃ anc, SaturationAncillaryFunction.constructor raw json_code = .ok anc
        ∧ anc.type = .TYPE_EXPONENTIAL)
    ∧ (∀ anc : SaturationAncillaryFunction α,
      SaturationAncillaryFunction.constructor raw json_code = .ok anc →
      ∃ type : String, json_code.type = .ok type
        ∧ (type = "rational_polynomial" → anc.type = .TYPE_RATIONAL_POLYNOMIAL)
        ∧ (type = "rhoLnoexp" → anc.type = .TYPE_NOT_EXPONENTIAL)
        ∧ (type ≠ "rational_polynomial" → type ≠ "rhoLnoexp" →
            anc.type = .TYPE_EXPONENTIAL)
        ∧ anc.type ≠ .TYPE_NOT_SET
        ∧ ∀ (L : Externals α) (T : α),
            SaturationAncillaryFunction.evaluate L anc T
              ≠ .error (.ValueError "type not set")) := by
  refine ⟨fun A B e htype hA hB he => ⟨_, constructor_rational raw json_code A B e htype hA hB he,
      rfl⟩, ?_, ?_, ?_⟩
  · intro n t Tmin Tmax rv utr Tr htype hn ht hTmin hTmax hrv hutr hTr
    exact ⟨_, constructor_nonrational raw json_code "rhoLnoexp" n t Tmin Tmax rv utr Tr htype
      (by decide) hn ht hTmin hTmax hrv hutr hTr, rfl⟩
  · intro type n t Tmin Tmax rv utr Tr htype hr h2 hn ht hTmin hTmax hrv hutr hTr
    exact ⟨_, constructor_nonrational raw json_code type n t Tmin Tmax rv utr Tr htype
      hr hn ht hTmin hTmax hrv hutr hTr, by simp [h2]⟩
  · intro anc h
    obtain ⟨type, htype, hform, -⟩ := constructor_ok raw json_code anc h
    have hset : anc.type ≠ .TYPE_NOT_SET := by
      rw [hform]
      split
      · simp
      · split <;> simp
    refine ⟨type, htype, fun h1 => ?_, fun h2 => ?_, fun h1 h2 => ?_, hset,
      fun L T => evaluate_ne_type_not_set L anc hset T⟩
    · rw [hform, if_pos h1]
    · rw [hform, if_neg (by rw [h2]; decide), if_pos h2]
    · rw [hform, if_neg h1, if_neg h2]

/-- C16, on three type strings: `"rational_polynomial"` gives an ancillary of
form RationalPolynomial, `"rhoLnoexp"` one of form NonExponential, and the
case variant `"RhoLnoexp"` one of form Exponential. -/
theorem C16_constructor_form_witness :
    (∃ anc : SaturationAncillaryFunction ℝ,
      SaturationAncillaryFunction.constructor (sampleAncillary .TYPE_NOT_SET [] [] false 0 0)
        (sampleRationalJson [1, 2] [3] 0) = .ok anc
      ∧ anc.type = .TYPE_RATIONAL_POLYNOMIAL)
    ∧ (∃ anc : SaturationAncillaryFunction ℝ,
      SaturationAncillaryFunction.constructor (sampleAncillary .TYPE_NOT_SET [] [] false 0 0)
        (sampleJson "rhoLnoexp" [1] [2] 1 6 1 false 4) = .ok anc
      ∧ anc.type = .TYPE_NOT_EXPONENTIAL)
    ∧ (∃ anc : SaturationAncillaryFunction ℝ,
      SaturationAncillaryFunction.constructor (sampleAncillary .TYPE_NOT_SET [] [] false 0 0)
        (sampleJson "RhoLnoexp" [1] [2] 1 6 1 false 4) = .ok anc
      ∧ anc.type = .TYPE_EXPONENTIAL) :=
  ⟨(C16_constructor_form (sampleAncillary .TYPE_NOT_SET [] [] false (0 : ℝ) 0)
      (sampleRationalJson [1, 2] [3] 0)).1 [1, 2] [3] 0 rfl rfl rfl rfl,
   (C16_constructor_form (sampleAncillary .TYPE_NOT_SET [] [] false (0 : ℝ) 0)
      (sampleJson "rhoLnoexp" [1] [2] 1 6 1 false 4)).2.1 [1] [2] 1 6 1 false 4
      rfl rfl rfl rfl rfl rfl rfl rfl,
   (C16_constructor_form (sampleAncillary .TYPE_NOT_SET [] [] false (0 : ℝ) 0)
      (sampleJson "RhoLnoexp" [1] [2] 1 6 1 false 4)).2.2.1 "RhoLnoexp" [1] [2] 1 6 1 false 4
      rfl (by decide) (by decide) rfl rfl rfl rfl rfl rfl rfl⟩

/-- C18, as stated, fails: from `type = "rhoLnoexp"`, `n = [1, 2]`, `t = [1]`
the constructor returns a NonExponential ancillary with `N = 2` and `t` of
size `1`, and the access `t[1]` of `evaluate` is outside `t`. -/
theorem C18_counterexample :
    ∃ anc : SaturationAncillaryFunction ℝ,
      SaturationAncillaryFunction.constructor (sampleAncillary .TYPE_NOT_SET [] [] false 0 0)
        (sampleJson "rhoLnoexp" [1, 2] [1] 1 6 1 false 4) = .ok anc
      ∧ anc.type = .TYPE_NOT_EXPONENTIAL ∧ anc.N = 2 ∧ anc.t.length = 1
      ∧ ∀ T : ℝ, SaturationAncillaryFunction.evaluate
          (sampleExternals (fun x y : ℝ => x ^ y) Real.exp) anc T = .error .undefined := by
  refine ⟨{ sampleAncillary .TYPE_NOT_EXPONENTIAL [1, 2] [1] false 1 4 with
      Tmin := 1, Tmax := 6 }, ?_, rfl, rfl, rfl, fun T => ?_⟩
  · simp [SaturationAncillaryFunction.constructor, SaturationAncillaryFunction.constructor.read,
      sampleJson, sampleAncillary, bind, Except.bind, pure, Except.pure]
  · simp [SaturationAncillaryFunction.evaluate, SaturationAncillaryFunction.evaluate.fill,
      sampleAncillary]

/-- C18, amended: an ancillary the constructor returns in a non-rational form
has `n.size() == N` and `s.size() == N`, and its `n` and `t` are the arrays
read from `json_code`; when those two arrays have the same size, also
`t.size() == N`, and `evaluate` returns a value for every `T`, every access
`n[i]`, `t[i]`, `s[i]` being in bounds. -/
theorem C18_constructor_sizes (raw : SaturationAncillaryFunction α) (json_code : JsonCode α)
    (anc : SaturationAncillaryFunction α)
    (h : SaturationAncillaryFunction.constructor raw json_code = .ok anc)
    (hform : anc.type ≠ .TYPE_RATIONAL_POLYNOMIAL) :
    anc.n.length = anc.N ∧ anc.s.length = anc.N
    ∧ ∃ n t : List α, json_code.n = .ok n ∧ json_code.t = .ok t ∧ anc.n = n ∧ anc.t = t
      ∧ (t.length = n.length →
          anc.t.length = anc.N
          ∧ ∀ (L : Externals α) (T : α),
              ∃ r, SaturationAncillaryFunction.evaluate L anc T = .ok r) := by
  obtain ⟨type, htype, hty, hN, hs, -, hnt⟩ := constructor_ok raw json_code anc h
  have hr : type ≠ "rational_polynomial" := by
    intro hr
    rw [hty, if_pos hr] at hform
    exact hform rfl
  have hset : anc.type ≠ .TYPE_NOT_SET := by
    rw [hty]
    split
    · simp
    · split <;> simp
  obtain ⟨n, t, hn, ht, han, hat⟩ := hnt hr
  refine ⟨hN.symm, by rw [hs]; exact hN.symm, n, t, hn, ht, han, hat, fun hlen => ?_⟩
  have htN : anc.t.length = anc.N := by rw [hat, hlen, ← han]; exact hN.symm
  exact ⟨htN, fun L T =>
    ⟨_, evaluate_nonrational L anc hset hform hN.symm htN (by rw [hs]; exact hN.symm) T⟩⟩

/-- C18, amended, on `type = "rhoLnoexp"`, `n = [1]`, `t = [2]`: the constructor
returns an ancillary with `n`, `t`, `s` of size `N = 1`. -/
theorem C18_constructor_sizes_witness :
    ∃ anc : SaturationAncillaryFunction ℝ,
      SaturationAncillaryFunction.constructor (sampleAncillary .TYPE_NOT_SET [] [] false 0 0)
        (sampleJson "rhoLnoexp" [1] [2] 1 6 1 false 4) = .ok anc
      ∧ anc.n.length = anc.N ∧ anc.s.length = anc.N ∧ anc.t.length = anc.N := by
  have h : SaturationAncillaryFunction.constructor
      (sampleAncillary .TYPE_NOT_SET [] [] false (0 : ℝ) 0)
      (sampleJson "rhoLnoexp" [1] [2] 1 6 1 false 4)
      = .ok { sampleAncillary .TYPE_NOT_EXPONENTIAL [1] [2] false 1 4 with
          Tmin := 1, Tmax := 6 } := by
    simp [SaturationAncillaryFunction.constructor, SaturationAncillaryFunction.constructor.read,
      sampleJson, sampleAncillary, bind, Except.bind, pure, Except.pure]
  obtain ⟨h1, h2, n, t, hn, ht, -, -, h3⟩ :=
    C18_constructor_sizes _ _ _ h (by simp [sampleAncillary])
  simp only [sampleJson, Except.ok.injEq] at hn ht
  subst hn ht
  exact ⟨_, h, h1, h2, (h3 rfl).1⟩

/-- C19: the scratch vector `s` is not part of the logical state.  For an
ancillary whose `s` has size `N` and any other vector `s2` of size `N`, the
value `evaluate(T)` returns, or its failure, is the same on the ancillary and
on the ancillary with `s` replaced by `s2`; and the object after a returning
`evaluate` differs from the object before in no member other than `s`. -/
theorem C19_scratch_is_not_state (L : Externals α) (anc : SaturationAncillaryFunction α)
    (s2 : List α) (hs : anc.s.length = anc.N) (hs2 : s2.length = anc.N) (T : α) :
    (SaturationAncillaryFunction.evaluate L anc T).map Prod.fst
      = (SaturationAncillaryFunction.evaluate L { anc with s := s2 } T).map Prod.fst
    ∧ ∀ (v : α) (anc' : SaturationAncillaryFunction α),
        SaturationAncillaryFunction.evaluate L anc T = .ok (v, anc') →
        anc' = { anc with s := anc'.s } := by
  have hfill := fill_scratch L (1 - T / anc.T_r) anc.n anc.t anc.N [] anc.s s2 hs hs2
  simp only [List.length_nil, List.nil_append] at hfill
  constructor
  · unfold SaturationAncillaryFunction.evaluate
    by_cases h1 : anc.type = .TYPE_NOT_SET
    · simp [h1, Except.map]
    · by_cases h2 : anc.type = .TYPE_RATIONAL_POLYNOMIAL
      · simp [h2, Except.map]
      · simp only [h1, h2, if_false, hfill]
  · intro v anc' hev
    unfold SaturationAncillaryFunction.evaluate at hev
    by_cases h1 : anc.type = .TYPE_NOT_SET
    · simp [h1] at hev
    · by_cases h2 : anc.type = .TYPE_RATIONAL_POLYNOMIAL
      · rw [if_neg h1, if_pos h2] at hev
        simp only [Except.ok.injEq, Prod.mk.injEq] at hev
        rw [← hev.2]
      · simp only [h1, h2, if_false] at hev
        cases hf : SaturationAncillaryFunction.evaluate.fill L (1 - T / anc.T_r) anc.n anc.t
            anc.N 0 anc.s with
        | error e => rw [hf] at hev; cases hev
        | ok s =>
          rw [hf] at hev
          simp only at hev
          split at hev
          · simp only [Except.ok.injEq, Prod.mk.injEq] at hev
            rw [← hev.2]
          · simp only [Except.ok.injEq, Prod.mk.injEq] at hev
            rw [← hev.2]

/-- C19, on the ancillary with `n = [2, 3]`, `t = [1, 2]` and the scratch
`[2, 3]`, against the scratch `[7, 9]`: the values at `T = 2` agree. -/
theorem C19_scratch_is_not_state_witness :
    (SaturationAncillaryFunction.evaluate (sampleExternals (fun x y : ℝ => x ^ y) Real.exp)
        (sampleAncillary .TYPE_EXPONENTIAL [2, 3] [1, 2] true 5 4) 2).map Prod.fst
      = (SaturationAncillaryFunction.evaluate (sampleExternals (fun x y : ℝ => x ^ y) Real.exp)
        { sampleAncillary .TYPE_EXPONENTIAL [2, 3] [1, 2] true 5 4 with s := [7, 9] }
        2).map Prod.fst :=
  (C19_scratch_is_not_state (sampleExternals (fun x y : ℝ => x ^ y) Real.exp)
    (sampleAncillary .TYPE_EXPONENTIAL [2, 3] [1, 2] true 5 4) [7, 9] rfl rfl 2).1

end ClaimsConstructor

section ClaimsBounds

variable {α : Type} [Add α] [Sub α] [Mul α] [Div α] [Zero α] [One α] [LinearOrder α]
  [∀ x y : α, Decidable (x ≤ y)] [OfScientific α]

/-- C20: on a Simon-type melting line with at least one segment, over numbers
that are linearly ordered, `set_limits` returns and afterwards the query
`evaluate(iP, iT, Tmin)` at the curve's `Tmin` returns exactly the curve's
`pmin`: the first segment holds its own `T_min`, whichever of its two bounds
is the smaller, and its closed form there is the `p_min` that `set_limits`
stored. -/
theorem C20_pressure_at_Tmin_is_pmin (L : Externals α) (m : MeltingLineVariables α)
    (hm : m.type = .MELTING_LINE_SIMON_TYPE) (hne : m.simon.parts ≠ []) :
    ∃ m' : MeltingLineVariables α,
      MeltingLineVariables.set_limits L m = .ok m'
      ∧ MeltingLineVariables.evaluate L m' L.iP L.iT m'.Tmin = .ok m'.pmin := by
  obtain ⟨m', first', last', hset, ht, hparts, hfirst', -, hTmin, hpmin, -⟩ :=
    set_limits_simon L m hm hne
  refine ⟨m', hset, ?_⟩
  rw [evaluate_simon_p L m' ht, hTmin, hpmin]
  rw [hparts] at hfirst' ⊢
  cases hp : m.simon.parts with
  | nil => exact absurd hp hne
  | cons part rest =>
    rw [hp] at hfirst'
    simp only [List.map_cons, List.head?_cons, Option.some.injEq] at hfirst'
    subst hfirst'
    have hin : is_in_closed_range
        (MeltingLineVariables.set_limits.simonPart L part).T_min
        (MeltingLineVariables.set_limits.simonPart L part).T_max
        (MeltingLineVariables.set_limits.simonPart L part).T_min = true := by
      rw [is_in_closed_range_iff]
      rcases le_total (MeltingLineVariables.set_limits.simonPart L part).T_min
        (MeltingLineVariables.set_limits.simonPart L part).T_max with h | h
      · exact Or.inl ⟨le_refl _, h⟩
      · exact Or.inr ⟨h, le_refl _⟩
    simp only [List.map_cons, MeltingLineVariables.evaluate.simon_p, hin, if_true]
    rfl

/-- C20, on the two segments `[1, 2]` (`T_0 = 1`, `p_0 = 0`, `a = 1`, `c = 1`)
and `[2, 3]` (`T_0 = 2`, `p_0 = 1`, `a = 1`, `c = 1`): after `set_limits` the
query at `Tmin` returns `pmin`. -/
theorem C20_pressure_at_Tmin_is_pmin_witness :
    ∃ m' : MeltingLineVariables ℝ,
      MeltingLineVariables.set_limits (sampleExternals (fun x y : ℝ => x ^ y) Real.exp)
        (sampleSimon [sampleSegment 1 2 1 0 1 1, sampleSegment 2 3 2 1 1 1]) = .ok m'
      ∧ MeltingLineVariables.evaluate (sampleExternals (fun x y : ℝ => x ^ y) Real.exp)
          m' 1 0 m'.Tmin = .ok m'.pmin :=
  C20_pressure_at_Tmin_is_pmin (sampleExternals (fun x y : ℝ => x ^ y) Real.exp)
    (sampleSimon [sampleSegment 1 2 1 0 1 1, sampleSegment 2 3 2 1 1 1]) rfl
    (by simp [sampleSimon])

end ClaimsBounds

end CoolProp
